import Mathlib

/-!
# tlp2: alias store and command dispatcher

A shallow embedding of `cmd/tlp2-bin/main.go`.

* The `aliases` table is a list of rows in rowid order. The `id` column
  (`INTEGER PRIMARY KEY AUTOINCREMENT`) is assigned by the engine and is never
  read or written by the program; a row's position in the list stands for it.
* Go strings are Lean strings (valid UTF-8 text). SQLite compares `TEXT` with
  the `BINARY` collation, i.e. bytewise on UTF-8, which is the order of the
  code points, the order of `String`.
* `invocation_count` is an SQLite `INTEGER`, a 64-bit signed integer; a sum
  that leaves that range is kept by the engine as a `REAL` (see `Count`).
* The operator `LIKE` reads its operands up to their first U+0000 and refuses
  a pattern of more than 50000 bytes (see `likeTooComplex`).
* `time.Now().Format(time.RFC3339)` is the parameter `now`.
* A process is a `World`: the table, what was written to standard output, the
  messages handed to the logger, and the exit status once `os.Exit` was called.
  Every effect is a function `World → World` that does nothing once the
  process has exited, so a handler reads as the sequence of its statements.
-/

namespace Tlp2

/-! ## Data model -/

/-- A value of the column `invocation_count`. The program stores the integer
0 and adds 1 on each recall, so the column holds a 64-bit signed `INTEGER`
(`int n` with `-2^63 ≤ n < 2^63`) or, once the sum has left that range, the
`REAL` 9223372036854775808.0 that the engine keeps in its place. -/
inductive Count where
  | int (n : Int)
  | realTwoPow63
deriving DecidableEq

instance instOfNatCount (n : Nat) : OfNat Count n := ⟨.int n⟩

/-- The number that a count stands for. -/
def Count.value : Count → Int
  | .int n => n
  | .realTwoPow63 => 9223372036854775808

/-- The expression `invocation_count + 1` as the engine evaluates and stores
it: integer addition while the sum fits in 64 bits; from 9223372036854775807
the sum is the `REAL` 9223372036854775808.0, and adding 1 to that `REAL`
rounds back to the same `REAL`. -/
def Count.addOne : Count → Count
  | .int n => if n < 9223372036854775807 then .int (n + 1) else .realTwoPow63
  | .realTwoPow63 => .realTwoPow63

/-- One row of the table `aliases` (without the engine-assigned `id`). -/
structure Row where
  folder_path : String
  alias_ : String
  absolute_path : String
  created_at : String
  updated_at : String
  invocation_count : Count
deriving DecidableEq

/-- Errors returned by `database/sql`. -/
inductive DbErr where
  /-- The value `sql.ErrNoRows`. -/
  | errNoRows
  /-- A constraint violation reported by the engine, with its text. -/
  | constraint (msg : String)
deriving DecidableEq

/-- The `Error()` text of a database error, as printed by `%v`. -/
def DbErr.Error : DbErr → String
  | .errNoRows => "sql: no rows in result set"
  | .constraint msg => msg

/-- The violation of `UNIQUE(folder_path, alias)`. -/
def uniqueFailed : DbErr :=
  .constraint "UNIQUE constraint failed: aliases.folder_path, aliases.alias"

/-- The condition `WHERE folder_path = ? AND alias = ?`. -/
def whereKey (folderPath alias_ : String) (r : Row) : Bool :=
  r.folder_path == folderPath && r.alias_ == alias_

/-- Two rows with the same `(folder_path, alias)`. -/
def sameKey (a b : Row) : Bool :=
  a.folder_path == b.folder_path && a.alias_ == b.alias_

/-! ## SQL statements -/

/-- `db.QueryRow(SELECT absolute_path ... WHERE ...).Scan(&p)`: the first
matching row, or `sql.ErrNoRows`. -/
def queryRowAbsolutePath (db : List Row) (hit : Row → Bool) : Except DbErr String :=
  match db.filter hit with
  | [] => .error .errNoRows
  | r :: _ => .ok r.absolute_path

/-- An `UPDATE ... SET ... WHERE ...` that assigns no column of the unique
index: every matching row is rewritten; the result carries `RowsAffected`. -/
def sqlUpdate (hit : Row → Bool) (set : Row → Row) (db : List Row) :
    Except DbErr (List Row × Nat) :=
  .ok (db.map (fun r => if hit r then set r else r), db.countP hit)

/-- An `UPDATE` that assigns a column of the unique index, row by row: `done`
holds the rows already visited, the second list the rows still to visit. A
rewritten row whose key is held by another row of the table aborts the
statement. On success the result is the new table and `RowsAffected`. -/
def sqlUpdateKeyFrom (hit : Row → Bool) (set : Row → Row) :
    List Row → List Row → Except DbErr (List Row × Nat)
  | done, [] => .ok (done, 0)
  | done, r :: rest =>
    if hit r then
      if (done ++ rest).any (sameKey (set r)) then .error uniqueFailed
      else
        match sqlUpdateKeyFrom hit set (done ++ [set r]) rest with
        | .error e => .error e
        | .ok (t, n) => .ok (t, n + 1)
    else sqlUpdateKeyFrom hit set (done ++ [r]) rest

/-- An `UPDATE` that assigns a column of the unique index. A failed statement
leaves the table as it was (the caller keeps the old table). -/
def sqlUpdateKey (hit : Row → Bool) (set : Row → Row) (db : List Row) :
    Except DbErr (List Row × Nat) :=
  sqlUpdateKeyFrom hit set [] db

/-- `INSERT INTO aliases (...) VALUES (?, ?, ?, ?, ?, 0)`. -/
def sqlInsert (folderPath alias_ absolutePath createdAt updatedAt : String) (db : List Row) :
    Except DbErr (List Row × Nat) :=
  if db.any (whereKey folderPath alias_) then .error uniqueFailed
  else .ok (db ++ [⟨folderPath, alias_, absolutePath, createdAt, updatedAt, 0⟩], 1)

/-- `DELETE FROM aliases WHERE ...`, with `RowsAffected` (which does not fail
on a result of this driver). -/
def sqlDelete (hit : Row → Bool) (db : List Row) : Except DbErr (List Row × Nat) :=
  .ok (db.filter (fun r => !hit r), db.countP hit)

/-- Lexicographic comparison by code point, the order of `memcmp` on UTF-8. -/
def ltChars : List Char → List Char → Bool
  | _, [] => false
  | [], _ :: _ => true
  | a :: as, b :: bs => decide (a.toNat < b.toNat) || (a == b && ltChars as bs)

/-- The `BINARY` collation on `TEXT`: `a` sorts strictly before `b`. -/
def textLt (a b : String) : Bool := ltChars a.data b.data

/-- The order of `ORDER BY folder_path, alias`. -/
def rowLe (a b : Row) : Bool :=
  textLt a.folder_path b.folder_path ||
    (a.folder_path == b.folder_path && !textLt b.alias_ a.alias_)

/-- `SELECT folder_path, alias, absolute_path FROM aliases WHERE ... ORDER BY
folder_path, alias`. -/
def sqlSelectOrdered (hit : Row → Bool) (db : List Row) : List Row :=
  (db.filter hit).insertionSort (fun a b => rowLe a b = true)

/-! ## Process state and output -/

/-- What does not change while a command runs. -/
structure Env where
  /-- The global `sourced`. -/
  sourced : Bool
  /-- The table behind `strconv.IsPrint` for runes above U+00FF. -/
  isPrintWide : Char → Bool
  /-- The result of `os.UserHomeDir` joined with
  `.config/teleportation/teleportation.sqlite3`, or the error's text. -/
  dbPath : Except String String
  /-- The error of `os.MkdirAll(configDir, os.ModePerm)`, if it fails. -/
  mkdirAllErr : Option String
  /-- The error of `sql.Open("sqlite3", dbPath)`, if it fails. -/
  sqlOpenErr : Option String
  /-- The error of `db.Exec(createTableSQL)`, if it fails. -/
  createTableErr : Option String

/-- The state of the running process. -/
structure World where
  db : List Row
  stdout : String
  logged : List String
  exitCode : Option Nat
deriving DecidableEq

/-- A fresh process over the table `db`. -/
def World.start (db : List Row) : World := ⟨db, "", [], none⟩

/-- Write to standard output (`fmt.Print*`). -/
def World.print (s : String) (w : World) : World :=
  match w.exitCode with
  | some _ => w
  | none => { w with stdout := w.stdout ++ s }

/-- The call `log.Fatalf("%s", message)`: the logger writes the message to
standard error (behind its date and time) and calls `os.Exit(1)`. -/
def World.logFatal (message : String) (w : World) : World :=
  match w.exitCode with
  | some _ => w
  | none => { w with logged := w.logged ++ [message], exitCode := some 1 }

/-- The call `os.Exit(code)`. -/
def World.exit (code : Nat) (w : World) : World :=
  match w.exitCode with
  | some _ => w
  | none => { w with exitCode := some code }

/-- Replace the table after a successful statement. -/
def World.setDb (db : List Row) (w : World) : World :=
  match w.exitCode with
  | some _ => w
  | none => { w with db := db }

/-! ## Rendering -/

/-- The digit table `lowerhex` of `strconv`. -/
def lowerhex (n : Nat) : Char := "0123456789abcdef".data.getD (n % 16) '0'

/-- The function `strconv.IsPrint`: Latin-1 is decided by ranges, the rest by
the tables of the library. -/
def IsPrint (env : Env) (c : Char) : Bool :=
  if c.toNat ≤ 0xFF then
    (0x20 ≤ c.toNat && c.toNat ≤ 0x7E) || (0xA1 ≤ c.toNat && c.toNat != 0xAD)
  else env.isPrintWide c

/-- The function `appendEscapedRune` of `strconv` for the quote `"`, as used by
the verb `%q` without flags. -/
def appendEscapedRune (env : Env) (c : Char) : List Char :=
  if c = '"' ∨ c = Char.ofNat 92 then [Char.ofNat 92, c]
  else if IsPrint env c then [c]
  else if c.toNat = 7 then [Char.ofNat 92, 'a']
  else if c.toNat = 8 then [Char.ofNat 92, 'b']
  else if c.toNat = 12 then [Char.ofNat 92, 'f']
  else if c.toNat = 10 then [Char.ofNat 92, 'n']
  else if c.toNat = 13 then [Char.ofNat 92, 'r']
  else if c.toNat = 9 then [Char.ofNat 92, 't']
  else if c.toNat = 11 then [Char.ofNat 92, 'v']
  else if c.toNat < 0x20 ∨ c.toNat = 0x7f then
    [Char.ofNat 92, 'x', lowerhex (c.toNat / 16), lowerhex c.toNat]
  else if c.toNat < 0x10000 then
    [Char.ofNat 92, 'u', lowerhex (c.toNat / 4096), lowerhex (c.toNat / 256),
      lowerhex (c.toNat / 16), lowerhex c.toNat]
  else
    [Char.ofNat 92, 'U', lowerhex (c.toNat / 268435456), lowerhex (c.toNat / 16777216),
      lowerhex (c.toNat / 1048576), lowerhex (c.toNat / 65536),
      lowerhex (c.toNat / 4096), lowerhex (c.toNat / 256),
      lowerhex (c.toNat / 16), lowerhex c.toNat]

/-- The function `strconv.Quote`, the rendering of a string by `%q`. -/
def Quote (env : Env) (s : String) : String :=
  ⟨'"' :: (s.data.flatMap (appendEscapedRune env) ++ ['"'])⟩

/-- The characters rewritten by the replacer of `escapeForShell`. -/
def shellSpecials : List Char := "\"'`&|<>;()$".data

/-- Each of the eleven characters is replaced by a backslash and itself. -/
def escapeForShell (input : String) : String :=
  ⟨input.data.flatMap (fun c => if c ∈ shellSpecials then [Char.ofNat 92, c] else [c])⟩

/-- Prints an informational message. -/
def handleInformativeOutput (env : Env) (message : String) (w : World) : World :=
  if env.sourced then w.print ("echo " ++ escapeForShell message ++ "\n")
  else w.print (message ++ "\n")

/-- Prints a command for the parent shell. -/
def handleCommandOutput (command : String) (w : World) : World :=
  w.print (command ++ "\n")

/-- Prints an error message. -/
def handleErrorOutput (env : Env) (message : String) (w : World) : World :=
  if env.sourced then w.print ("echo " ++ Quote env message ++ "\n")
  else w.print (message ++ "\n")

/-- Prints a fatal error message and exits. -/
def handleFatalErrorOutput (env : Env) (message : String) (w : World) : World :=
  if env.sourced then w |> World.print ("echo " ++ Quote env message ++ "\n") |> World.exit 1
  else w.logFatal message

/-! ## Handlers -/

/-- Inserts a new alias or updates an existing one. -/
def handleInsertOrUpdate (env : Env) (now : String)
    (folderPath alias_ absolutePath : String) (update : Bool) (w : World) : World :=
  match queryRowAbsolutePath w.db (whereKey folderPath alias_) with
  | .ok _ =>
    if !update then
      handleErrorOutput env ("Error: Alias '" ++ alias_ ++ "' under folder '" ++ folderPath ++
        "' already exists. Use --update to modify it.") w
    else
      match sqlUpdate (whereKey folderPath alias_)
          (fun r => { r with absolute_path := absolutePath, updated_at := now }) w.db with
      | .error e =>
        w |> handleFatalErrorOutput env ("Error updating alias: " ++ e.Error)
          |> handleInformativeOutput env ("Alias '" ++ alias_ ++ "' updated.")
      | .ok (db, _) =>
        w |> World.setDb db |> handleInformativeOutput env ("Alias '" ++ alias_ ++ "' updated.")
  | .error .errNoRows =>
    match sqlInsert folderPath alias_ absolutePath now now w.db with
    | .error e =>
      w |> handleFatalErrorOutput env ("Error inserting alias: " ++ e.Error)
        |> handleInformativeOutput env ("Alias '" ++ alias_ ++ "' created.")
    | .ok (db, _) =>
      w |> World.setDb db |> handleInformativeOutput env ("Alias '" ++ alias_ ++ "' created.")
  | .error e => handleFatalErrorOutput env ("Error retrieving alias: " ++ e.Error) w

/-- Recalls an alias from a folder and prints the `cd` command. -/
def handleRecall (env : Env) (folderPath alias_ : String) (w : World) : World :=
  match queryRowAbsolutePath w.db (whereKey folderPath alias_) with
  | .error .errNoRows =>
    handleErrorOutput env ("Error: Alias '" ++ alias_ ++ "' under folder '" ++ folderPath ++
      "' does not exist.") w
  | .error e => handleErrorOutput env ("Error retrieving alias: " ++ e.Error) w
  | .ok absolutePath =>
    match sqlUpdate (whereKey folderPath alias_)
        (fun r => { r with invocation_count := r.invocation_count.addOne }) w.db with
    | .error e => handleErrorOutput env ("Error updating invocation count: " ++ e.Error) w
    | .ok (db, _) => w |> World.setDb db |> World.print ("cd " ++ absolutePath ++ "\n")

/-- The line of one listed row: `fmt.Sprintf("%s %s %s", alias, folderPath, absolutePath)`. -/
def listLine (r : Row) : String :=
  r.alias_ ++ " " ++ r.folder_path ++ " " ++ r.absolute_path

/-- The loop printing each collected line as an informational message. -/
def printLines (env : Env) (lines : List String) (w : World) : World :=
  lines.foldl (fun acc line => handleInformativeOutput env line acc) w

/-- Lists all aliases. -/
def handleList (env : Env) (w : World) : World :=
  let aliases := (sqlSelectOrdered (fun _ => true) w.db).map listLine
  if aliases.length = 0 then handleInformativeOutput env "No aliases found." w
  else
    w |> handleInformativeOutput env (Nat.repr aliases.length ++ " aliases found:")
      |> printLines env aliases

/-- The comparison behind the operator `LIKE` of SQLite without `ESCAPE`,
pattern first: `%` matches any run of characters, `_` any single character,
and any other character itself, ASCII letters without regard to case. -/
def likeMatch : List Char → List Char → Bool
  | [], s => s.isEmpty
  | c :: p, s =>
    if c = '%' then s.tails.any (likeMatch p)
    else
      match s with
      | [] => false
      | d :: rest => (c = '_' || c.toLower = d.toLower) && likeMatch p rest

/-- The text up to its first U+0000: `LIKE` reads both operands as
NUL-terminated. -/
def upToNul (s : List Char) : List Char := s.takeWhile (fun c => c != Char.ofNat 0)

/-- The pattern is longer than `SQLITE_MAX_LIKE_PATTERN_LENGTH`, 50000 bytes:
`LIKE` then fails with `LIKE or GLOB pattern too complex`. -/
def likeTooComplex (pattern : String) : Bool := decide (50000 < pattern.utf8ByteSize)

/-- The condition `WHERE folder_path LIKE ?` with the argument
`"%"+partialFolder+"%"`, for a pattern within the length limit. -/
def whereFolderLike (partialFolder : String) (r : Row) : Bool :=
  likeMatch (upToNul ("%" ++ partialFolder ++ "%").data) (upToNul r.folder_path.data)

/-- The rows that the loop over `rows.Next()` collects for `SELECT ... WHERE
folder_path LIKE ? ORDER BY folder_path, alias`. The failure of `LIKE` on too
long a pattern comes up in `rows.Next()`, which then returns false; the
handler does not look at `rows.Err()`, so the loop ends without a row. -/
def queryFolderLike (partialFolder : String) (db : List Row) : List Row :=
  if likeTooComplex ("%" ++ partialFolder ++ "%") then []
  else sqlSelectOrdered (whereFolderLike partialFolder) db

/-- Lists the aliases under a folder path. -/
def handleListWithFolder (env : Env) (partialFolder : String) (w : World) : World :=
  let aliases := (queryFolderLike partialFolder w.db).map listLine
  if aliases.length = 0 then
    handleInformativeOutput env
      ("No aliases found under the folder path '" ++ partialFolder ++ "'.") w
  else
    w |> handleInformativeOutput env (Nat.repr aliases.length ++
          " aliases found under the folder path '" ++ partialFolder ++ "':")
      |> printLines env aliases

/-- Deletes an alias. -/
def handleDelete (env : Env) (folderPath alias_ : String) (w : World) : World :=
  match sqlDelete (whereKey folderPath alias_) w.db with
  | .error e => handleFatalErrorOutput env ("Error deleting alias: " ++ e.Error) w
  | .ok (db, rowsAffected) =>
    if rowsAffected = 0 then
      w |> World.setDb db |> handleErrorOutput env
        ("Alias '" ++ alias_ ++ "' under folder '" ++ folderPath ++ "' not found.")
    else
      w |> World.setDb db |> handleInformativeOutput env
        ("Alias '" ++ alias_ ++ "' under folder '" ++ folderPath ++ "' deleted successfully.")

/-- Renames an alias. After a failed statement the process exits, so nothing
that follows the fatal report runs. -/
def handleRename (env : Env) (now : String) (folderPath oldAlias newAliasName : String)
    (w : World) : World :=
  match sqlUpdateKey (whereKey folderPath oldAlias)
      (fun r => { r with alias_ := newAliasName, updated_at := now }) w.db with
  | .error e => handleFatalErrorOutput env ("Error renaming alias: " ++ e.Error) w
  | .ok (db, rowsAffected) =>
    if rowsAffected = 0 then
      w |> World.setDb db |> handleErrorOutput env
        ("Alias '" ++ oldAlias ++ "' under folder '" ++ folderPath ++ "' not found.")
    else
      w |> World.setDb db |> handleInformativeOutput env
        ("Alias '" ++ oldAlias ++ "' under folder '" ++ folderPath ++ "' renamed to '" ++
          newAliasName ++ "'.")

/-- Renames a folder path for all its aliases. -/
def handleRenameFolder (env : Env) (now : String) (oldFolderPath newFolderPath : String)
    (w : World) : World :=
  match sqlUpdateKey (fun r => r.folder_path == oldFolderPath)
      (fun r => { r with folder_path := newFolderPath, updated_at := now }) w.db with
  | .error e => handleFatalErrorOutput env ("Error renaming folder path: " ++ e.Error) w
  | .ok (db, rowsAffected) =>
    if rowsAffected = 0 then
      w |> World.setDb db |> handleErrorOutput env
        ("No aliases found under folder path '" ++ oldFolderPath ++ "'.")
    else
      w |> World.setDb db |> handleInformativeOutput env
        ("Folder path '" ++ oldFolderPath ++ "' renamed to '" ++ newFolderPath ++ "' for " ++
          Nat.repr rowsAffected ++ " aliases.")

/-- Searches an alias across all folders; a single match is teleported to. -/
def handleAliasSearch (env : Env) (alias_ : String) (w : World) : World :=
  let aliases := sqlSelectOrdered (fun r => r.alias_ == alias_) w.db
  if aliases.length = 0 then
    handleInformativeOutput env ("Alias '" ++ alias_ ++ "' not found.") w
  else if aliases.length = 1 then
    handleCommandOutput ("cd " ++ (aliases.map (fun r => r.absolute_path)).headD "") w
  else
    w |> handleInformativeOutput env ("There are " ++ Nat.repr aliases.length ++
          " aliases under different folders. Please specify the folder too:")
      |> printLines env (aliases.map listLine)

/-- Prints the usage of the command. -/
def printUsage (env : Env) (command : String) (w : World) : World :=
  w |> handleInformativeOutput env ("Usage for storing: " ++ command ++
        " <folder_path> <alias> <absolute_path> [--update] [--sourced]")
    |> handleInformativeOutput env ("Usage for recalling: " ++ command ++
        " <folder_path> <alias> [--sourced]")
    |> handleInformativeOutput env ("Usage for searching: " ++ command ++ " <alias> [--sourced]")
    |> handleInformativeOutput env ("Usage for listing all aliases: " ++ command ++
        " --list [<partial_folder>] [--sourced]")
    |> handleInformativeOutput env ("Usage for deleting: " ++ command ++
        " --delete <folder_path> <alias> [--sourced]")
    |> handleInformativeOutput env ("Usage for renaming an alias: " ++ command ++
        " --rename <folder_path> <alias> <new_alias_name> [--sourced]")
    |> handleInformativeOutput env ("Usage for renaming a folder: " ++ command ++
        " --rename-folder <old_folder_path> <new_folder_path> [--sourced]")
    |> handleInformativeOutput env ("Usage for opening SQLite: " ++ command ++ " --sqlite")

/-- Opens the database file with the `sqlite3` client. -/
def handleOpenSQLite (env : Env) (w : World) : World :=
  match env.dbPath with
  | .error e => handleFatalErrorOutput env ("Error getting home directory: " ++ e) w
  | .ok dbPath =>
    if env.sourced then handleCommandOutput ("sqlite3 " ++ dbPath) w
    else
      handleInformativeOutput env
        ("Use the \"sqlite3\" command to manually edit the entries at the SQLite database at '" ++
          dbPath ++ "'") w

/-- Opens the database: the home directory, the configuration directory, the
database handle and `CREATE TABLE IF NOT EXISTS`, each failure reported as a
fatal error. When all succeed the table is `w.db`. -/
def initDatabase (env : Env) (w : World) : World :=
  let w1 :=
    match env.dbPath with
    | .error e => handleFatalErrorOutput env ("Error getting home directory: " ++ e) w
    | .ok _ => w
  let w2 :=
    match env.mkdirAllErr with
    | some e => handleFatalErrorOutput env ("Error creating config directory: " ++ e) w1
    | none => w1
  let w3 :=
    match env.sqlOpenErr with
    | some e => handleFatalErrorOutput env ("Error opening database: " ++ e) w2
    | none => w2
  match env.createTableErr with
  | some e => handleFatalErrorOutput env ("Error creating table: " ++ e) w3
  | none => w3

/-! ## Dispatcher -/

/-- The action flags of `main`, with the global `sourced`. -/
structure Flags where
  update : Bool
  list : Bool
  deleteFlag : Bool
  renameFlag : Bool
  renameFolderFlag : Bool
  sqliteFlag : Bool
  sourced : Bool
deriving DecidableEq

/-- The function `strings.HasPrefix`. -/
def HasPrefix (s pre : String) : Bool := pre.data.isPrefixOf s.data

/-- The element `args[i]`. -/
def argAt (args : List String) (i : Nat) : String := args.getD i ""

/-- The loop over the leading switches: `args[1]` is examined while it starts
with `--`, and `args = args[1:]` drops the element before it. The result is
the flags and the remaining `args`; an unknown switch ends the loop with an
error carrying the state reached. -/
def flagLoop (fl : Flags) : List String → Except (Flags × List String) (Flags × List String)
  | [] => .ok (fl, [])
  | a0 :: rest =>
    match rest with
    | [] => .ok (fl, [a0])
    | a1 :: _ =>
      if HasPrefix a1 "--" then
        if a1 = "--update" then flagLoop { fl with update := true } rest
        else if a1 = "--list" then flagLoop { fl with list := true } rest
        else if a1 = "--delete" then flagLoop { fl with deleteFlag := true } rest
        else if a1 = "--rename" then flagLoop { fl with renameFlag := true } rest
        else if a1 = "--rename-folder" then flagLoop { fl with renameFolderFlag := true } rest
        else if a1 = "--sqlite" then flagLoop { fl with sqliteFlag := true } rest
        else if a1 = "--sourced" then flagLoop { fl with sourced := true } rest
        else .error (fl, a0 :: rest)
      else .ok (fl, a0 :: rest)

/-- The function `main` on the argument vector `args`; `env.sourced` is the
value of the global at process start. -/
def main (env : Env) (now : String) (args : List String) (w : World) : World :=
  if args.length < 2 then
    w |> handleFatalErrorOutput env "Invalid usage. Please check the instructions."
      |> printUsage env (argAt args 0)
  else
    match flagLoop ⟨false, false, false, false, false, false, env.sourced⟩ args with
    | .error (fl, args) =>
      w |> handleFatalErrorOutput { env with sourced := fl.sourced }
            "Invalid flag provided. Please check the instructions."
        |> printUsage { env with sourced := fl.sourced } (argAt args 0)
    | .ok (fl, args) =>
      let env := { env with sourced := fl.sourced }
      if fl.sqliteFlag then handleOpenSQLite env w
      else
        let w := initDatabase env w
        if fl.list then
          if args.length = 1 then handleList env w
          else if args.length = 2 then handleListWithFolder env (argAt args 1) w
          else printUsage env (argAt args 0) w
        else if fl.deleteFlag then
          if args.length ≠ 3 then printUsage env (argAt args 0) w
          else handleDelete env (argAt args 1) (argAt args 2) w
        else if fl.renameFlag then
          if args.length ≠ 4 then printUsage env (argAt args 0) w
          else handleRename env now (argAt args 1) (argAt args 2) (argAt args 3) w
        else if fl.renameFolderFlag then
          if args.length ≠ 3 then printUsage env (argAt args 0) w
          else handleRenameFolder env now (argAt args 1) (argAt args 2) w
        else if args.length = 2 then handleAliasSearch env (argAt args 1) w
        else if args.length = 3 ∨ args.length = 4 then
          if args.length = 4 then
            handleInsertOrUpdate env now (argAt args 1) (argAt args 2) (argAt args 3) fl.update w
          else handleRecall env (argAt args 1) (argAt args 2) w
        else printUsage env (argAt args 0) w

/-! ## Notions used to state the properties -/

/-- The line that `handleInformativeOutput` writes for `message`. -/
def informativeLine (env : Env) (message : String) : String :=
  if env.sourced then "echo " ++ escapeForShell message ++ "\n" else message ++ "\n"

/-- The lines of a list, one after the other. -/
def joinLines (lines : List String) : String :=
  lines.foldr (fun s acc => s ++ acc) ""

/-- Every one of the eleven characters in the list stands right after a
backslash; `prev` is the character before the list. -/
def precededByBackslash : Char → List Char → Bool
  | _, [] => true
  | prev, c :: rest =>
    (decide (c ∉ shellSpecials) || prev == Char.ofNat 92) && precededByBackslash c rest

/-- Remove each backslash that stands right before one of the eleven
characters. -/
def dropEscapes : List Char → List Char
  | [] => []
  | [c] => [c]
  | c :: d :: rest =>
    if c = Char.ofNat 92 ∧ d ∈ shellSpecials then d :: dropEscapes rest
    else c :: dropEscapes (d :: rest)

/-- The shell reading an unquoted word: a backslash makes the next character
literal. The result tells that none of the eleven characters is met
unescaped. -/
def shellReadsLiteral : List Char → Bool
  | [] => true
  | [c] => decide (c ∉ shellSpecials)
  | c :: d :: rest =>
    if c = Char.ofNat 92 then shellReadsLiteral rest
    else decide (c ∉ shellSpecials) && shellReadsLiteral (d :: rest)

/-- The inside of a double-quoted literal holds no double quote that would end
it: a backslash covers the character after it. -/
def quotedBodyClosed : List Char → Bool
  | [] => true
  | [c] => decide (c ≠ '"' ∧ c ≠ Char.ofNat 92)
  | c :: d :: rest =>
    if c = Char.ofNat 92 then quotedBodyClosed rest
    else decide (c ≠ '"') && quotedBodyClosed (d :: rest)

/-- The text between `echo ` and the final newline of a line. -/
def echoPayload (line : String) : List Char := (line.data.drop 5).dropLast

/-- The pair `(folder_path, alias)` of a row. -/
def keyOf (r : Row) : String × String := (r.folder_path, r.alias_)

/-- No two records share the same `(folder_path, alias)` pair: the constraint
`UNIQUE(folder_path, alias)` of the table. -/
def UniqueKeys (db : List Row) : Prop := (db.map keyOf).Nodup

instance decidableUniqueKeys (db : List Row) : Decidable (UniqueKeys db) :=
  inferInstanceAs (Decidable (db.map keyOf).Nodup)

/-- The stores reachable from the empty store by the five handlers that write
to the table, each run as a process of its own with any arguments. -/
inductive Reachable : List Row → Prop
  | empty : Reachable []
  | stepInsertOrUpdate (env : Env) (now folderPath alias_ absolutePath : String) (update : Bool)
      (db : List Row) : Reachable db →
      Reachable (handleInsertOrUpdate env now folderPath alias_ absolutePath update
        (World.start db)).db
  | stepRecall (env : Env) (folderPath alias_ : String) (db : List Row) : Reachable db →
      Reachable (handleRecall env folderPath alias_ (World.start db)).db
  | stepDelete (env : Env) (folderPath alias_ : String) (db : List Row) : Reachable db →
      Reachable (handleDelete env folderPath alias_ (World.start db)).db
  | stepRename (env : Env) (now folderPath oldAlias newAliasName : String) (db : List Row) :
      Reachable db →
      Reachable (handleRename env now folderPath oldAlias newAliasName (World.start db)).db
  | stepRenameFolder (env : Env) (now oldFolderPath newFolderPath : String) (db : List Row) :
      Reachable db →
      Reachable (handleRenameFolder env now oldFolderPath newFolderPath (World.start db)).db

/-! ## Basic facts about the statements -/

theorem whereKey_iff (folderPath alias_ : String) (r : Row) :
    whereKey folderPath alias_ r = true ↔ r.folder_path = folderPath ∧ r.alias_ = alias_ := by
  simp [whereKey]

theorem filter_whereKey_eq_nil (db : List Row) (folderPath alias_ : String)
    (h : ∀ r ∈ db, ¬ (r.folder_path = folderPath ∧ r.alias_ = alias_)) :
    db.filter (whereKey folderPath alias_) = [] := by
  rw [List.filter_eq_nil_iff]
  intro r hr
  rw [whereKey_iff]
  exact h r hr

theorem queryRow_none (db : List Row) (folderPath alias_ : String)
    (h : ∀ r ∈ db, ¬ (r.folder_path = folderPath ∧ r.alias_ = alias_)) :
    queryRowAbsolutePath db (whereKey folderPath alias_) = .error .errNoRows := by
  simp [queryRowAbsolutePath, filter_whereKey_eq_nil db folderPath alias_ h]

theorem queryRow_some (db : List Row) (folderPath alias_ : String)
    (h : ∃ r ∈ db, r.folder_path = folderPath ∧ r.alias_ = alias_) :
    ∃ p, queryRowAbsolutePath db (whereKey folderPath alias_) = .ok p := by
  obtain ⟨r, hr, hk⟩ := h
  have hm : r ∈ db.filter (whereKey folderPath alias_) :=
    List.mem_filter.mpr ⟨hr, (whereKey_iff _ _ _).mpr hk⟩
  unfold queryRowAbsolutePath
  cases hf : db.filter (whereKey folderPath alias_) with
  | nil => rw [hf] at hm; cases hm
  | cons x _ => exact ⟨x.absolute_path, rfl⟩

@[simp] theorem print_db (s : String) (w : World) : (w.print s).db = w.db := by
  unfold World.print; split <;> rfl

@[simp] theorem print_exitCode (s : String) (w : World) :
    (w.print s).exitCode = w.exitCode := by
  unfold World.print; split <;> rfl

@[simp] theorem print_logged (s : String) (w : World) : (w.print s).logged = w.logged := by
  unfold World.print; split <;> rfl

theorem print_stdout (s : String) (w : World) (h : w.exitCode = none) :
    (w.print s).stdout = w.stdout ++ s := by
  unfold World.print; rw [h]

@[simp] theorem setDb_exitCode (db : List Row) (w : World) :
    (w.setDb db).exitCode = w.exitCode := by
  unfold World.setDb; split <;> rfl

@[simp] theorem setDb_logged (db : List Row) (w : World) : (w.setDb db).logged = w.logged := by
  unfold World.setDb; split <;> rfl

@[simp] theorem setDb_stdout (db : List Row) (w : World) : (w.setDb db).stdout = w.stdout := by
  unfold World.setDb; split <;> rfl

theorem setDb_db (db : List Row) (w : World) (h : w.exitCode = none) :
    (w.setDb db).db = db := by
  unfold World.setDb; rw [h]

@[simp] theorem info_db (env : Env) (m : String) (w : World) :
    (handleInformativeOutput env m w).db = w.db := by
  unfold handleInformativeOutput; split <;> simp

@[simp] theorem info_exitCode (env : Env) (m : String) (w : World) :
    (handleInformativeOutput env m w).exitCode = w.exitCode := by
  unfold handleInformativeOutput; split <;> simp

@[simp] theorem info_logged (env : Env) (m : String) (w : World) :
    (handleInformativeOutput env m w).logged = w.logged := by
  unfold handleInformativeOutput; split <;> simp

theorem info_stdout (env : Env) (m : String) (w : World) (h : w.exitCode = none) :
    (handleInformativeOutput env m w).stdout =
      w.stdout ++ (if env.sourced then "echo " ++ escapeForShell m ++ "\n" else m ++ "\n") := by
  unfold handleInformativeOutput; split <;> simp [print_stdout _ _ h]

@[simp] theorem error_db (env : Env) (m : String) (w : World) :
    (handleErrorOutput env m w).db = w.db := by
  unfold handleErrorOutput; split <;> simp

@[simp] theorem error_exitCode (env : Env) (m : String) (w : World) :
    (handleErrorOutput env m w).exitCode = w.exitCode := by
  unfold handleErrorOutput; split <;> simp

@[simp] theorem error_logged (env : Env) (m : String) (w : World) :
    (handleErrorOutput env m w).logged = w.logged := by
  unfold handleErrorOutput; split <;> simp

theorem error_stdout (env : Env) (m : String) (w : World) (h : w.exitCode = none) :
    (handleErrorOutput env m w).stdout =
      w.stdout ++ (if env.sourced then "echo " ++ Quote env m ++ "\n" else m ++ "\n") := by
  unfold handleErrorOutput; split <;> simp [print_stdout _ _ h]

@[simp] theorem start_db (db : List Row) : (World.start db).db = db := rfl

@[simp] theorem start_exitCode (db : List Row) : (World.start db).exitCode = none := rfl

@[simp] theorem start_logged (db : List Row) : (World.start db).logged = [] := rfl

@[simp] theorem start_stdout (db : List Row) : (World.start db).stdout = "" := rfl

@[simp] theorem empty_append_string (s : String) : "" ++ s = s := by
  apply String.ext; simp

/-- C2. Storing an alias that already exists without `--update` leaves the
whole store unchanged, emits the diagnostic `Error: Alias '<alias>' under
folder '<folder>' already exists. Use --update to modify it.` (as a plain line
in interactive mode, as an `echo` of its quoted text in sourced mode) and does
not terminate the process. -/
theorem C2_store_existing_without_update (env : Env) (now folderPath alias_ path : String)
    (db : List Row) (h : ∃ r ∈ db, r.folder_path = folderPath ∧ r.alias_ = alias_) :
    (handleInsertOrUpdate env now folderPath alias_ path false (World.start db)).db = db ∧
    (handleInsertOrUpdate env now folderPath alias_ path false (World.start db)).exitCode = none ∧
    (handleInsertOrUpdate env now folderPath alias_ path false (World.start db)).logged = [] ∧
    (handleInsertOrUpdate env now folderPath alias_ path false (World.start db)).stdout =
      (if env.sourced then
        "echo " ++ Quote env ("Error: Alias '" ++ alias_ ++ "' under folder '" ++ folderPath ++
          "' already exists. Use --update to modify it.") ++ "\n"
      else
        "Error: Alias '" ++ alias_ ++ "' under folder '" ++ folderPath ++
          "' already exists. Use --update to modify it." ++ "\n") := by
  obtain ⟨p, hp⟩ := queryRow_some db folderPath alias_ h
  simp [handleInsertOrUpdate, hp, error_stdout]

/-- Witness of C2: a second store of `myapp` under `code/projects`. -/
theorem C2_store_existing_without_update_witness :
    (handleInsertOrUpdate ⟨false, fun _ => true, .ok "db", none, none, none⟩ "t" "code/projects" "myapp" "/tmp/x"
        false (World.start [⟨"code/projects", "myapp", "/home/user/code/myapp", "s", "s", 3⟩])).db
      = [⟨"code/projects", "myapp", "/home/user/code/myapp", "s", "s", 3⟩] :=
  (C2_store_existing_without_update ⟨false, fun _ => true, .ok "db", none, none, none⟩ "t" "code/projects" "myapp"
    "/tmp/x" [⟨"code/projects", "myapp", "/home/user/code/myapp", "s", "s", 3⟩]
    ⟨_, List.mem_singleton.mpr rfl, rfl, rfl⟩).1

theorem forall₂_map_if (db : List Row) (hit : Row → Bool) (set : Row → Row)
    (R : Row → Row → Prop) (h : ∀ r, R r (if hit r then set r else r)) :
    List.Forall₂ R db (db.map (fun r => if hit r then set r else r)) := by
  induction db with
  | nil => exact List.Forall₂.nil
  | cons a l ih => exact List.Forall₂.cons (h a) ih

/-- C3. Storing an existing alias with `--update` sets the record's
`absolute_path` to the new path and its `updated_at` to the current time,
leaves its `invocation_count`, `created_at` and key as they were, leaves every
other record unchanged, and keeps the number of records. -/
theorem C3_update_existing (env : Env) (now folderPath alias_ newPath : String)
    (db : List Row) (h : ∃ r ∈ db, r.folder_path = folderPath ∧ r.alias_ = alias_) :
    (handleInsertOrUpdate env now folderPath alias_ newPath true (World.start db)).db.length
      = db.length ∧
    List.Forall₂
      (fun old new =>
        if old.folder_path = folderPath ∧ old.alias_ = alias_ then
          new.absolute_path = newPath ∧ new.updated_at = now ∧
          new.invocation_count = old.invocation_count ∧ new.created_at = old.created_at ∧
          new.folder_path = old.folder_path ∧ new.alias_ = old.alias_
        else new = old)
      db (handleInsertOrUpdate env now folderPath alias_ newPath true (World.start db)).db := by
  obtain ⟨p, hp⟩ := queryRow_some db folderPath alias_ h
  have hdb : (handleInsertOrUpdate env now folderPath alias_ newPath true (World.start db)).db
      = db.map (fun r => if whereKey folderPath alias_ r then
          { r with absolute_path := newPath, updated_at := now } else r) := by
    simp [handleInsertOrUpdate, hp, sqlUpdate, setDb_db]
  rw [hdb]
  refine ⟨by simp, forall₂_map_if db _ _ _ ?_⟩
  intro r
  by_cases hk : r.folder_path = folderPath ∧ r.alias_ = alias_
  · simp [(whereKey_iff folderPath alias_ r).mpr hk, hk]
  · have hw : whereKey folderPath alias_ r = false := by
      rw [Bool.eq_false_iff, Ne, whereKey_iff]; exact hk
    simp [hw, hk]

/-- Witness of C3 on the store of `TestUpdateAlias`, recalled twice before. -/
theorem C3_update_existing_witness :
    (handleInsertOrUpdate ⟨false, fun _ => true, .ok "db", none, none, none⟩ "t2" "code/projects" "myapp"
        "/home/user/newpath/myapp" true
        (World.start [⟨"code/projects", "myapp", "/home/user/code/myapp", "t1", "t1", 2⟩])).db.length
      = 1 :=
  (C3_update_existing ⟨false, fun _ => true, .ok "db", none, none, none⟩ "t2" "code/projects" "myapp"
    "/home/user/newpath/myapp" [⟨"code/projects", "myapp", "/home/user/code/myapp", "t1", "t1", 2⟩]
    ⟨_, List.mem_singleton.mpr rfl, rfl, rfl⟩).1

/-- C4 (counterexample). A record whose `invocation_count` is the largest
64-bit integer is recalled: the count becomes the `REAL`
9223372036854775808.0, and the next recall leaves that count as it is instead
of adding one. -/
theorem C4_recall_at_integer_limit :
    (handleRecall ⟨false, fun _ => true, .ok "db", none, none, none⟩ "f" "a"
        (World.start [⟨"f", "a", "/p", "s", "s", .int 9223372036854775807⟩])).db =
      [⟨"f", "a", "/p", "s", "s", .realTwoPow63⟩] ∧
    ((handleRecall ⟨false, fun _ => true, .ok "db", none, none, none⟩ "f" "a"
        (World.start [⟨"f", "a", "/p", "s", "s", .realTwoPow63⟩])).db.map
        (fun r => r.invocation_count.value)) = [9223372036854775808] ∧
    ((handleRecall ⟨false, fun _ => true, .ok "db", none, none, none⟩ "f" "a"
        (World.start [⟨"f", "a", "/p", "s", "s", .realTwoPow63⟩])).db.map
        (fun r => r.invocation_count.value)) ≠
      ([(⟨"f", "a", "/p", "s", "s", .realTwoPow63⟩ : Row)].map
        (fun r => r.invocation_count.value + 1)) := by
  decide

/-- C4 (amended). A recall changes the store only in the `invocation_count` of
the record for `(folder, alias)`, every other field and every other record
staying as it was: an integer count below 9223372036854775807 grows by exactly
one; the count 9223372036854775807 becomes the `REAL` 9223372036854775808.0,
which a recall leaves as it is. When there is no such record the store is
unchanged, the process goes on, and in interactive mode the only output is
the line `Error: Alias '<alias>' under folder '<folder>' does not exist.`. -/
theorem C4_recall_effect (env : Env) (folderPath alias_ : String) (db : List Row) :
    ((∃ r ∈ db, r.folder_path = folderPath ∧ r.alias_ = alias_) →
      List.Forall₂
        (fun old new =>
          if old.folder_path = folderPath ∧ old.alias_ = alias_ then
            new.folder_path = old.folder_path ∧ new.alias_ = old.alias_ ∧
            new.absolute_path = old.absolute_path ∧ new.created_at = old.created_at ∧
            new.updated_at = old.updated_at ∧
            (∀ n : Int, old.invocation_count = .int n → n < 9223372036854775807 →
              new.invocation_count = .int (n + 1)) ∧
            (old.invocation_count = .int 9223372036854775807 →
              new.invocation_count = .realTwoPow63) ∧
            (old.invocation_count = .realTwoPow63 → new.invocation_count = .realTwoPow63)
          else new = old)
        db (handleRecall env folderPath alias_ (World.start db)).db) ∧
    ((∀ r ∈ db, ¬ (r.folder_path = folderPath ∧ r.alias_ = alias_)) →
      (handleRecall env folderPath alias_ (World.start db)).db = db ∧
      (handleRecall env folderPath alias_ (World.start db)).exitCode = none ∧
      (handleRecall env folderPath alias_ (World.start db)).logged = [] ∧
      (env.sourced = false →
        (handleRecall env folderPath alias_ (World.start db)).stdout =
          "Error: Alias '" ++ alias_ ++ "' under folder '" ++ folderPath ++
            "' does not exist." ++ "\n")) := by
  constructor
  · intro h
    obtain ⟨p, hp⟩ := queryRow_some db folderPath alias_ h
    have hdb : (handleRecall env folderPath alias_ (World.start db)).db
        = db.map (fun r => if whereKey folderPath alias_ r then
            { r with invocation_count := r.invocation_count.addOne } else r) := by
      simp [handleRecall, hp, sqlUpdate, setDb_db]
    rw [hdb]
    refine forall₂_map_if db _ _ _ ?_
    intro r
    by_cases hk : r.folder_path = folderPath ∧ r.alias_ = alias_
    · rw [if_pos hk, if_pos ((whereKey_iff folderPath alias_ r).mpr hk)]
      refine ⟨rfl, rfl, rfl, rfl, rfl, ?_, ?_, ?_⟩
      · intro n hn hlt
        simp only [hn, Count.addOne, if_pos hlt]
      · intro hn
        simp only [hn, Count.addOne]
        rfl
      · intro hn
        simp only [hn, Count.addOne]
    · have hw : whereKey folderPath alias_ r = false := by
        rw [Bool.eq_false_iff, Ne, whereKey_iff]; exact hk
      simp [hw, hk]
  · intro h
    have hq := queryRow_none db folderPath alias_ h
    refine ⟨?_, ?_, ?_, ?_⟩
    · simp [handleRecall, hq]
    · simp [handleRecall, hq]
    · simp [handleRecall, hq]
    · intro hs
      simp [handleRecall, hq, error_stdout, hs]

/-- Witness of C4 (amended): the recall of `TestRecallNonExistentAlias` on an
empty store, and the first recall of a stored alias. -/
theorem C4_recall_effect_witness :
    (handleRecall ⟨false, fun _ => true, .ok "db", none, none, none⟩ "code/projects"
        "nonexistent" (World.start [])).stdout =
      "Error: Alias '" ++ "nonexistent" ++ "' under folder '" ++ "code/projects" ++
        "' does not exist." ++ "\n" ∧
    List.Forall₂
      (fun old new =>
        if old.folder_path = "code/projects" ∧ old.alias_ = "myapp" then
          new.folder_path = old.folder_path ∧ new.alias_ = old.alias_ ∧
          new.absolute_path = old.absolute_path ∧ new.created_at = old.created_at ∧
          new.updated_at = old.updated_at ∧
          (∀ n : Int, old.invocation_count = .int n → n < 9223372036854775807 →
            new.invocation_count = .int (n + 1)) ∧
          (old.invocation_count = .int 9223372036854775807 →
            new.invocation_count = .realTwoPow63) ∧
          (old.invocation_count = .realTwoPow63 → new.invocation_count = .realTwoPow63)
        else new = old)
      [⟨"code/projects", "myapp", "/home/user/code/myapp", "t", "t", 0⟩]
      (handleRecall ⟨false, fun _ => true, .ok "db", none, none, none⟩ "code/projects" "myapp"
        (World.start [⟨"code/projects", "myapp", "/home/user/code/myapp", "t", "t", 0⟩])).db :=
  ⟨((C4_recall_effect ⟨false, fun _ => true, .ok "db", none, none, none⟩ "code/projects"
      "nonexistent" []).2 (by simp)).2.2.2 rfl,
   (C4_recall_effect ⟨false, fun _ => true, .ok "db", none, none, none⟩ "code/projects" "myapp"
      [⟨"code/projects", "myapp", "/home/user/code/myapp", "t", "t", 0⟩]).1
      ⟨_, List.mem_singleton.mpr rfl, rfl, rfl⟩⟩

/-- C5. After a delete the store holds no record for `(folder, alias)` and a
following recall reports that the alias does not exist without touching the
store; the records with another key are kept as they were, in their order;
and when no record for `(folder, alias)` existed, the store is unchanged, the
process goes on and the outcome is the diagnostic `Alias '<alias>' under
folder '<folder>' not found.`. -/
theorem C5_delete_effect (env env2 : Env) (folderPath alias_ : String) (db : List Row) :
    (∀ r ∈ (handleDelete env folderPath alias_ (World.start db)).db,
      ¬ (r.folder_path = folderPath ∧ r.alias_ = alias_)) ∧
    (handleRecall env2 folderPath alias_
        (World.start (handleDelete env folderPath alias_ (World.start db)).db)).stdout =
      (if env2.sourced then
        "echo " ++ Quote env2 ("Error: Alias '" ++ alias_ ++ "' under folder '" ++ folderPath ++
          "' does not exist.") ++ "\n"
      else
        "Error: Alias '" ++ alias_ ++ "' under folder '" ++ folderPath ++
          "' does not exist." ++ "\n") ∧
    (handleRecall env2 folderPath alias_
        (World.start (handleDelete env folderPath alias_ (World.start db)).db)).db =
      (handleDelete env folderPath alias_ (World.start db)).db ∧
    (handleDelete env folderPath alias_ (World.start db)).db =
      db.filter (fun r => decide (¬ (r.folder_path = folderPath ∧ r.alias_ = alias_))) ∧
    (handleDelete env folderPath alias_ (World.start db)).exitCode = none ∧
    ((∀ r ∈ db, ¬ (r.folder_path = folderPath ∧ r.alias_ = alias_)) →
      (handleDelete env folderPath alias_ (World.start db)).db = db ∧
      (handleDelete env folderPath alias_ (World.start db)).logged = [] ∧
      (handleDelete env folderPath alias_ (World.start db)).stdout =
        (if env.sourced then
          "echo " ++ Quote env ("Alias '" ++ alias_ ++ "' under folder '" ++ folderPath ++
            "' not found.") ++ "\n"
        else
          "Alias '" ++ alias_ ++ "' under folder '" ++ folderPath ++ "' not found." ++ "\n")) := by
  have hdb : (handleDelete env folderPath alias_ (World.start db)).db
      = db.filter (fun r => decide (¬ (r.folder_path = folderPath ∧ r.alias_ = alias_))) := by
    have hf : db.filter (fun r => !whereKey folderPath alias_ r)
        = db.filter (fun r => decide (¬ (r.folder_path = folderPath ∧ r.alias_ = alias_))) := by
      congr 1; funext r
      by_cases hk : r.folder_path = folderPath ∧ r.alias_ = alias_
      · simp [(whereKey_iff folderPath alias_ r).mpr hk, hk]
      · have hw : whereKey folderPath alias_ r = false := by
          rw [Bool.eq_false_iff, Ne, whereKey_iff]; exact hk
        simp only [hw, hk, Bool.not_false, not_false_eq_true, decide_True]
    simp only [handleDelete, sqlDelete, start_db]
    split <;> simp [setDb_db, hf]
  have hnone : ∀ r ∈ (handleDelete env folderPath alias_ (World.start db)).db,
      ¬ (r.folder_path = folderPath ∧ r.alias_ = alias_) := by
    intro r hr
    rw [hdb, List.mem_filter] at hr
    exact of_decide_eq_true hr.2
  have hq := queryRow_none _ folderPath alias_ hnone
  refine ⟨hnone, ?_, ?_, hdb, ?_, ?_⟩
  · simp [handleRecall, hq, error_stdout]
  · simp [handleRecall, hq]
  · simp only [handleDelete, sqlDelete, start_db]
    split <;> simp
  · intro h
    have hc : db.countP (whereKey folderPath alias_) = 0 := by
      rw [List.countP_eq_zero]
      intro r hr
      rw [whereKey_iff]; exact h r hr
    refine ⟨?_, ?_, ?_⟩
    · rw [hdb, List.filter_eq_self]
      intro r hr
      exact decide_eq_true (h r hr)
    · simp [handleDelete, sqlDelete, hc]
    · simp [handleDelete, sqlDelete, hc, error_stdout]

/-- Witness of C5: the delete of `TestDeleteAlias`, then a delete of an alias
that is not stored. -/
theorem C5_delete_effect_witness :
    (handleDelete ⟨false, fun _ => true, .ok "db", none, none, none⟩ "code/projects" "myapp"
        (World.start [⟨"code/projects", "myapp", "/home/user/code/myapp", "t", "t", 0⟩])).db =
      [(⟨"code/projects", "myapp", "/home/user/code/myapp", "t", "t", 0⟩ : Row)].filter
        (fun r => decide (¬ (r.folder_path = "code/projects" ∧ r.alias_ = "myapp"))) ∧
    (handleDelete ⟨false, fun _ => true, .ok "db", none, none, none⟩ "code/projects" "other"
        (World.start [⟨"code/projects", "myapp", "/home/user/code/myapp", "t", "t", 0⟩])).db =
      [⟨"code/projects", "myapp", "/home/user/code/myapp", "t", "t", 0⟩] :=
  ⟨(C5_delete_effect ⟨false, fun _ => true, .ok "db", none, none, none⟩ ⟨false, fun _ => true, .ok "db", none, none, none⟩
      "code/projects" "myapp"
      [⟨"code/projects", "myapp", "/home/user/code/myapp", "t", "t", 0⟩]).2.2.2.1,
   ((C5_delete_effect ⟨false, fun _ => true, .ok "db", none, none, none⟩ ⟨false, fun _ => true, .ok "db", none, none, none⟩
      "code/projects" "other"
      [⟨"code/projects", "myapp", "/home/user/code/myapp", "t", "t", 0⟩]).2.2.2.2.2
      (by simp)).1⟩

/-! ## The order of `ORDER BY` -/

theorem char_eq_of_toNat_eq (a b : Char) (h : a.toNat = b.toNat) : a = b := by
  apply Char.ext
  apply UInt32.ext
  exact h

theorem ltChars_irrefl (a : List Char) : ltChars a a = false := by
  induction a with
  | nil => rfl
  | cons c l ih => simp [ltChars, ih]

theorem ltChars_trichotomy (a b : List Char) :
    ltChars a b = true ∨ a = b ∨ ltChars b a = true := by
  induction a generalizing b with
  | nil =>
    cases b with
    | nil => exact Or.inr (Or.inl rfl)
    | cons d m => exact Or.inl rfl
  | cons c l ih =>
    cases b with
    | nil => exact Or.inr (Or.inr rfl)
    | cons d m =>
      rcases Nat.lt_trichotomy c.toNat d.toNat with hlt | heq | hgt
      · left; simp [ltChars, hlt]
      · have hcd : c = d := char_eq_of_toNat_eq c d heq
        subst hcd
        rcases ih m with h1 | h2 | h3
        · left; simp [ltChars, h1]
        · right; left; rw [h2]
        · right; right; simp [ltChars, h3]
      · right; right; simp [ltChars, hgt]

theorem ltChars_trans (a b c : List Char) (hab : ltChars a b = true)
    (hbc : ltChars b c = true) : ltChars a c = true := by
  induction a generalizing b c with
  | nil =>
    cases c with
    | nil => cases b <;> simp [ltChars] at hbc
    | cons z n => rfl
  | cons x l ih =>
    cases b with
    | nil => simp [ltChars] at hab
    | cons y m =>
      cases c with
      | nil => simp [ltChars] at hbc
      | cons z n =>
        simp only [ltChars, Bool.or_eq_true, Bool.and_eq_true, decide_eq_true_eq,
          beq_iff_eq] at hab hbc ⊢
        rcases hab with h1 | ⟨h1, h2⟩
        · rcases hbc with h3 | ⟨h3, _⟩
          · exact Or.inl (Nat.lt_trans h1 h3)
          · subst h3; exact Or.inl h1
        · subst h1
          rcases hbc with h3 | ⟨h3, h4⟩
          · exact Or.inl h3
          · exact Or.inr ⟨h3, ih m n h2 h4⟩

theorem ltChars_asymm (a b : List Char) (hab : ltChars a b = true) : ltChars b a = false := by
  cases h : ltChars b a with
  | false => rfl
  | true =>
    have := ltChars_trans a b a hab h
    rw [ltChars_irrefl] at this
    cases this

theorem rowLe_total (a b : Row) : rowLe a b = true ∨ rowLe b a = true := by
  unfold rowLe textLt
  rcases ltChars_trichotomy a.folder_path.data b.folder_path.data with h | h | h
  · left; simp [h]
  · have hf : a.folder_path = b.folder_path := String.ext h
    cases hx : ltChars b.alias_.data a.alias_.data with
    | false => left; simp [hf]
    | true => right; simp [hf, ltChars_asymm _ _ hx]
  · right; simp [h]

theorem rowLe_trans (a b c : Row) (hab : rowLe a b = true) (hbc : rowLe b c = true) :
    rowLe a c = true := by
  unfold rowLe textLt at *
  simp only [Bool.or_eq_true, Bool.and_eq_true, beq_iff_eq, Bool.not_eq_true'] at hab hbc ⊢
  rcases hab with h1 | ⟨h1, h2⟩
  · rcases hbc with h3 | ⟨h3, _⟩
    · exact Or.inl (ltChars_trans _ _ _ h1 h3)
    · rw [← h3]; exact Or.inl h1
  · rcases hbc with h3 | ⟨h3, h4⟩
    · rw [h1]; exact Or.inl h3
    · refine Or.inr ⟨h1.trans h3, ?_⟩
      cases hx : ltChars c.alias_.data a.alias_.data with
      | false => rfl
      | true =>
        rcases ltChars_trichotomy a.alias_.data b.alias_.data with h | h | h
        · rw [ltChars_trans _ _ _ hx h] at h4; cases h4
        · rw [h] at hx; rw [hx] at h4; cases h4
        · rw [h] at h2; cases h2

theorem sqlSelectOrdered_sorted (hit : Row → Bool) (db : List Row) :
    (sqlSelectOrdered hit db).Pairwise (fun a b => rowLe a b = true) := by
  haveI : IsTotal Row (fun a b => rowLe a b = true) := ⟨rowLe_total⟩
  haveI : IsTrans Row (fun a b => rowLe a b = true) := ⟨rowLe_trans⟩
  exact List.sorted_insertionSort (fun a b => rowLe a b = true) (db.filter hit)

theorem sqlSelectOrdered_perm (hit : Row → Bool) (db : List Row) :
    (sqlSelectOrdered hit db).Perm (db.filter hit) :=
  List.perm_insertionSort (fun a b => rowLe a b = true) (db.filter hit)

theorem rowLe_folder (a b : Row) (h : rowLe a b = true) :
    textLt b.folder_path a.folder_path = false := by
  unfold rowLe at h
  simp only [Bool.or_eq_true, Bool.and_eq_true, beq_iff_eq] at h
  rcases h with h | ⟨h, _⟩
  · exact ltChars_asymm _ _ h
  · rw [h]; exact ltChars_irrefl _

/-! ## Printing a list of lines -/

theorem printLines_frame (env : Env) (lines : List String) (w : World) :
    (printLines env lines w).db = w.db ∧ (printLines env lines w).exitCode = w.exitCode ∧
    (printLines env lines w).logged = w.logged := by
  induction lines generalizing w with
  | nil => exact ⟨rfl, rfl, rfl⟩
  | cons l ls ih =>
    have := ih (handleInformativeOutput env l w)
    simpa [printLines] using this

theorem printLines_stdout (env : Env) (lines : List String) (w : World)
    (h : w.exitCode = none) :
    (printLines env lines w).stdout =
      w.stdout ++ joinLines (lines.map (informativeLine env)) := by
  induction lines generalizing w with
  | nil => apply String.ext; simp [printLines, joinLines]
  | cons l ls ih =>
    have h2 : (handleInformativeOutput env l w).exitCode = none := by simp [h]
    have := ih (handleInformativeOutput env l w) h2
    simp only [printLines, List.foldl_cons] at this ⊢
    rw [this, info_stdout env l w h, String.append_assoc]
    rfl

/-- C6. Let `M` be the records whose alias is exactly `a`, by ascending
`folder_path`. The search leaves the store alone and writes: for empty `M`
only the informational line `Alias '<a>' not found.`; for a single record only
the unescaped line `cd <absolute_path>`; for two or more records the header
line with the count and then one informational line `<alias> <folder_path>
<absolute_path>` per record of `M`, in that order, and nothing else. -/
theorem C6_alias_search (env : Env) (a : String) (db : List Row) :
    ∃ M : List Row,
      M.Perm (db.filter (fun r => decide (r.alias_ = a))) ∧
      M.Pairwise (fun x y => textLt y.folder_path x.folder_path = false) ∧
      (handleAliasSearch env a (World.start db)).db = db ∧
      (handleAliasSearch env a (World.start db)).exitCode = none ∧
      (handleAliasSearch env a (World.start db)).logged = [] ∧
      (M = [] → (handleAliasSearch env a (World.start db)).stdout =
        informativeLine env ("Alias '" ++ a ++ "' not found.")) ∧
      (∀ r, M = [r] → (handleAliasSearch env a (World.start db)).stdout =
        "cd " ++ r.absolute_path ++ "\n") ∧
      (2 ≤ M.length → (handleAliasSearch env a (World.start db)).stdout =
        informativeLine env ("There are " ++ Nat.repr M.length ++
          " aliases under different folders. Please specify the folder too:") ++
        joinLines (M.map (fun r => informativeLine env
          (r.alias_ ++ " " ++ r.folder_path ++ " " ++ r.absolute_path)))) := by
  refine ⟨sqlSelectOrdered (fun r => r.alias_ == a) db, ?_, ?_, ?_, ?_, ?_, ?_, ?_, ?_⟩
  · have hf : db.filter (fun r => decide (r.alias_ = a)) = db.filter (fun r => r.alias_ == a) := by
      congr 1
    rw [hf]
    exact sqlSelectOrdered_perm _ db
  · exact (sqlSelectOrdered_sorted _ db).imp (fun {x y} h => rowLe_folder x y h)
  · simp only [handleAliasSearch, start_db]
    split
    · simp
    · split
      · simp [handleCommandOutput]
      · simp [(printLines_frame env _ _).1]
  · simp only [handleAliasSearch, start_db]
    split
    · simp
    · split
      · simp [handleCommandOutput]
      · simp [(printLines_frame env _ _).2.1]
  · simp only [handleAliasSearch, start_db]
    split
    · simp
    · split
      · simp [handleCommandOutput]
      · simp [(printLines_frame env _ _).2.2]
  · intro hM
    simp [handleAliasSearch, hM, info_stdout, informativeLine]
  · intro r hM
    simp [handleAliasSearch, hM, handleCommandOutput, print_stdout, String.append_assoc]
  · intro hM
    have h0 : (sqlSelectOrdered (fun r => r.alias_ == a) db).length ≠ 0 := by omega
    have h1 : (sqlSelectOrdered (fun r => r.alias_ == a) db).length ≠ 1 := by omega
    simp only [handleAliasSearch, start_db, h0, h1, if_false]
    rw [printLines_stdout env _ _ (by simp), info_stdout env _ _ (by simp)]
    simp [informativeLine, listLine, List.map_map, Function.comp_def]

/-- Witness of C6: `myapp` stored under `code/projects` and under
`other/projects` is ambiguous. -/
theorem C6_alias_search_witness :
    ∃ M : List Row,
      M.Perm ([(⟨"other/projects", "myapp", "/tmp/myapp", "s", "s", 0⟩ : Row),
          ⟨"code/projects", "myapp", "/home/user/code/myapp", "s", "s", 1⟩].filter
        (fun r => decide (r.alias_ = "myapp"))) ∧
      2 ≤ M.length ∧
      (handleAliasSearch ⟨false, fun _ => true, .ok "db", none, none, none⟩ "myapp"
          (World.start [⟨"other/projects", "myapp", "/tmp/myapp", "s", "s", 0⟩,
            ⟨"code/projects", "myapp", "/home/user/code/myapp", "s", "s", 1⟩])).stdout =
        informativeLine ⟨false, fun _ => true, .ok "db", none, none, none⟩ ("There are " ++ Nat.repr M.length ++
          " aliases under different folders. Please specify the folder too:") ++
        joinLines (M.map (fun r => informativeLine ⟨false, fun _ => true, .ok "db", none, none, none⟩
          (r.alias_ ++ " " ++ r.folder_path ++ " " ++ r.absolute_path))) := by
  obtain ⟨M, hperm, _, _, _, _, _, _, h2⟩ :=
    C6_alias_search ⟨false, fun _ => true, .ok "db", none, none, none⟩ "myapp"
      [⟨"other/projects", "myapp", "/tmp/myapp", "s", "s", 0⟩,
        ⟨"code/projects", "myapp", "/home/user/code/myapp", "s", "s", 1⟩]
  have hlen : 2 ≤ M.length := by
    rw [hperm.length_eq]
    decide
  exact ⟨M, hperm, hlen, h2 hlen⟩

/-! ## Renaming onto an existing alias -/

theorem sqlUpdateKeyFrom_clash (hit : Row → Bool) (set : Row → Row) (done todo : List Row)
    (hclash : ∀ r ∈ todo, hit r = true →
      ∃ x ∈ done ++ todo, hit x = false ∧ sameKey (set r) x = true)
    (hex : ∃ r ∈ todo, hit r = true) :
    sqlUpdateKeyFrom hit set done todo = .error uniqueFailed := by
  induction todo generalizing done with
  | nil => obtain ⟨r, hr, _⟩ := hex; cases hr
  | cons r rest ih =>
    unfold sqlUpdateKeyFrom
    by_cases hr : hit r = true
    · obtain ⟨x, hx, hxhit, hxkey⟩ := hclash r (List.mem_cons_self _ _) hr
      have hxrest : x ∈ done ++ rest := by
        rcases List.mem_append.mp hx with h | h
        · exact List.mem_append_left _ h
        · rcases List.mem_cons.mp h with h2 | h2
          · rw [h2, hr] at hxhit; cases hxhit
          · exact List.mem_append_right _ h2
      have hany : (done ++ rest).any (sameKey (set r)) = true := by
        rw [List.any_eq_true]
        exact ⟨x, hxrest, hxkey⟩
      simp [hr, hany]
    · have hrf : hit r = false := by simpa using hr
      simp only [hrf, Bool.false_eq_true, if_false]
      apply ih
      · intro y hy hyhit
        obtain ⟨x, hx, hx2⟩ := hclash y (List.mem_cons_of_mem _ hy) hyhit
        refine ⟨x, ?_, hx2⟩
        simpa [List.mem_append, List.mem_cons, or_assoc] using hx
      · obtain ⟨y, hy, hyhit⟩ := hex
        rcases List.mem_cons.mp hy with h | h
        · rw [h] at hyhit; rw [hyhit] at hrf; cases hrf
        · exact ⟨y, h, hyhit⟩

/-- C7 (counterexample). With `a` and `b` both stored under folder `f`,
renaming `a` to `b` ends the process with exit status 1, in interactive and in
sourced mode: the collision is reported as a fatal error, not as a
recoverable diagnostic. -/
theorem C7_rename_collision_is_fatal :
    (handleRename ⟨false, fun _ => true, .ok "db", none, none, none⟩ "t" "f" "a" "b"
        (World.start [⟨"f", "a", "/p", "s", "s", 0⟩, ⟨"f", "b", "/q", "s", "s", 0⟩])).exitCode
      = some 1 ∧
    (handleRename ⟨true, fun _ => true, .ok "db", none, none, none⟩ "t" "f" "a" "b"
        (World.start [⟨"f", "a", "/p", "s", "s", 0⟩, ⟨"f", "b", "/q", "s", "s", 0⟩])).exitCode
      = some 1 := by
  decide

/-- C7 (amended). When the store holds records for both `(folder, oldAlias)`
and `(folder, newAlias)`, with different aliases, a rename leaves the store
unchanged and reports the collision as a fatal error: the text `Error renaming
alias: UNIQUE constraint failed: aliases.folder_path, aliases.alias` is handed
to the logger in interactive mode, or echoed in quoted form in sourced mode,
and the process exits with status 1. -/
theorem C7_rename_collision (env : Env) (now folderPath oldAlias newAlias : String)
    (db : List Row) (hne : oldAlias ≠ newAlias)
    (hold : ∃ r ∈ db, r.folder_path = folderPath ∧ r.alias_ = oldAlias)
    (hnew : ∃ r ∈ db, r.folder_path = folderPath ∧ r.alias_ = newAlias) :
    (handleRename env now folderPath oldAlias newAlias (World.start db)).db = db ∧
    (handleRename env now folderPath oldAlias newAlias (World.start db)).exitCode = some 1 ∧
    (env.sourced = false →
      (handleRename env now folderPath oldAlias newAlias (World.start db)).logged =
        ["Error renaming alias: UNIQUE constraint failed: aliases.folder_path, aliases.alias"] ∧
      (handleRename env now folderPath oldAlias newAlias (World.start db)).stdout = "") ∧
    (env.sourced = true →
      (handleRename env now folderPath oldAlias newAlias (World.start db)).logged = [] ∧
      (handleRename env now folderPath oldAlias newAlias (World.start db)).stdout =
        "echo " ++ Quote env
          "Error renaming alias: UNIQUE constraint failed: aliases.folder_path, aliases.alias"
          ++ "\n") := by
  have herr : sqlUpdateKey (whereKey folderPath oldAlias)
      (fun r => { r with alias_ := newAlias, updated_at := now }) db = .error uniqueFailed := by
    unfold sqlUpdateKey
    apply sqlUpdateKeyFrom_clash
    · intro r _ hr
      obtain ⟨x, hx, hxf, hxa⟩ := hnew
      rw [whereKey_iff] at hr
      refine ⟨x, by simpa using hx, ?_, ?_⟩
      · rw [Bool.eq_false_iff, Ne, whereKey_iff]
        rintro ⟨_, h2⟩
        exact hne (h2.symm.trans hxa)
      · simp [sameKey, hr.1, hxf, hxa]
    · obtain ⟨r, hr, hk⟩ := hold
      exact ⟨r, hr, (whereKey_iff _ _ _).mpr hk⟩
  have hw : handleRename env now folderPath oldAlias newAlias (World.start db) =
      handleFatalErrorOutput env
        "Error renaming alias: UNIQUE constraint failed: aliases.folder_path, aliases.alias"
        (World.start db) := by
    simp only [handleRename, start_db, herr]
    rfl
  rw [hw]
  cases hs : env.sourced <;>
    simp [handleFatalErrorOutput, hs, World.logFatal, World.exit, World.print, World.start]

/-- Witness of C7 (amended): `a` renamed to `b`, both stored under `f`. -/
theorem C7_rename_collision_witness :
    (handleRename ⟨false, fun _ => true, .ok "db", none, none, none⟩ "t" "f" "a" "b"
        (World.start [⟨"f", "a", "/p", "s", "s", 0⟩, ⟨"f", "b", "/q", "s", "s", 0⟩])).db =
      [⟨"f", "a", "/p", "s", "s", 0⟩, ⟨"f", "b", "/q", "s", "s", 0⟩] :=
  (C7_rename_collision ⟨false, fun _ => true, .ok "db", none, none, none⟩ "t" "f" "a" "b"
    [⟨"f", "a", "/p", "s", "s", 0⟩, ⟨"f", "b", "/q", "s", "s", 0⟩] (by decide)
    ⟨_, List.mem_cons_self _ _, rfl, rfl⟩
    ⟨_, List.mem_cons_of_mem _ (List.mem_cons_self _ _), rfl, rfl⟩).1

/-! ## Listing by folder: the operator `LIKE` -/

/-- The replacement of one character by `escapeForShell`. -/
theorem escapeForShell_cons (c : Char) (m : List Char) :
    (escapeForShell ⟨c :: m⟩).data =
      (if c ∈ shellSpecials then [Char.ofNat 92, c] else [c]) ++ (escapeForShell ⟨m⟩).data := by
  simp [escapeForShell]

theorem backslash_not_special : Char.ofNat 92 ∉ shellSpecials := by decide

theorem escapeForShell_preceded (m : List Char) (prev : Char) :
    precededByBackslash prev (escapeForShell ⟨m⟩).data = true := by
  induction m generalizing prev with
  | nil => rfl
  | cons c m ih =>
    rw [escapeForShell_cons]
    by_cases hc : c ∈ shellSpecials
    · simp [hc, precededByBackslash, ih, backslash_not_special]
    · simp [hc, precededByBackslash, ih]

theorem escapeForShell_head (m : List Char) :
    (escapeForShell ⟨m⟩).data = [] ∨
      ∃ d rest, (escapeForShell ⟨m⟩).data = d :: rest ∧ d ∉ shellSpecials := by
  cases m with
  | nil => left; rfl
  | cons c m =>
    right
    rw [escapeForShell_cons]
    by_cases hc : c ∈ shellSpecials
    · exact ⟨Char.ofNat 92, c :: (escapeForShell ⟨m⟩).data, by simp [hc], backslash_not_special⟩
    · exact ⟨c, (escapeForShell ⟨m⟩).data, by simp [hc], hc⟩

theorem dropEscapes_escapeForShell (m : List Char) :
    dropEscapes (escapeForShell ⟨m⟩).data = m := by
  induction m with
  | nil => rfl
  | cons c m ih =>
    rw [escapeForShell_cons]
    by_cases hc : c ∈ shellSpecials
    · simp [hc, dropEscapes, ih]
    · rcases escapeForShell_head m with h | ⟨d, rest, h, hd⟩
      · rw [h] at ih ⊢
        simp [hc, dropEscapes, ← ih]
      · rw [h] at ih ⊢
        simp [hc, dropEscapes, hd, ih]

theorem shellReadsLiteral_escapeForShell (m : List Char) (hm : Char.ofNat 92 ∉ m) :
    shellReadsLiteral (escapeForShell ⟨m⟩).data = true := by
  induction m with
  | nil => rfl
  | cons c m ih =>
    have hc92 : c ≠ Char.ofNat 92 := fun h => hm (h ▸ List.mem_cons_self _ _)
    have ih2 := ih (fun h => hm (List.mem_cons_of_mem _ h))
    rw [escapeForShell_cons]
    by_cases hc : c ∈ shellSpecials
    · simp [hc, shellReadsLiteral, ih2]
    · cases hrest : (escapeForShell ⟨m⟩).data with
      | nil => simp [hc, shellReadsLiteral]
      | cons d rest =>
        rw [hrest] at ih2
        simp [hc, shellReadsLiteral, hc92, ih2]

theorem quotedBodyClosed_escape (c : Char) (tail : List Char) :
    quotedBodyClosed (Char.ofNat 92 :: c :: tail) = quotedBodyClosed tail := by
  simp [quotedBodyClosed]

theorem quotedBodyClosed_plain (c : Char) (h1 : c ≠ '"') (h2 : c ≠ Char.ofNat 92)
    (tail : List Char) : quotedBodyClosed (c :: tail) = quotedBodyClosed tail := by
  cases tail with
  | nil => simp [quotedBodyClosed, h1, h2]
  | cons d rest => simp [quotedBodyClosed, h1, h2]

theorem lowerhex_plain (n : Nat) : lowerhex n ≠ '"' ∧ lowerhex n ≠ Char.ofNat 92 := by
  unfold lowerhex
  have hlt : n % 16 < 16 := Nat.mod_lt n (by decide)
  generalize n % 16 = k at hlt
  interval_cases k <;> decide

theorem quotedBodyClosed_hex (n : Nat) (tail : List Char) :
    quotedBodyClosed (lowerhex n :: tail) = quotedBodyClosed tail :=
  quotedBodyClosed_plain _ (lowerhex_plain n).1 (lowerhex_plain n).2 tail

theorem quotedBodyClosed_ite (p : Prop) [Decidable p] (a b tail : List Char)
    (ha : quotedBodyClosed (a ++ tail) = quotedBodyClosed tail)
    (hb : quotedBodyClosed (b ++ tail) = quotedBodyClosed tail) :
    quotedBodyClosed ((if p then a else b) ++ tail) = quotedBodyClosed tail := by
  split <;> assumption

theorem quotedBodyClosed_rune (env : Env) (c : Char) (tail : List Char) :
    quotedBodyClosed (appendEscapedRune env c ++ tail) = quotedBodyClosed tail := by
  unfold appendEscapedRune
  by_cases h : c = '"' ∨ c = Char.ofNat 92
  · rw [if_pos h]
    exact quotedBodyClosed_escape c tail
  · have h1 : c ≠ '"' := fun e => h (Or.inl e)
    have h2 : c ≠ Char.ofNat 92 := fun e => h (Or.inr e)
    rw [if_neg h]
    apply quotedBodyClosed_ite
    · exact quotedBodyClosed_plain c h1 h2 tail
    repeat' apply quotedBodyClosed_ite
    all_goals
      first
        | exact quotedBodyClosed_escape _ tail
        | exact (quotedBodyClosed_escape _ _).trans
            ((quotedBodyClosed_hex _ _).trans (quotedBodyClosed_hex _ _))
        | exact (quotedBodyClosed_escape _ _).trans
            ((quotedBodyClosed_hex _ _).trans ((quotedBodyClosed_hex _ _).trans
              ((quotedBodyClosed_hex _ _).trans (quotedBodyClosed_hex _ _))))
        | exact (quotedBodyClosed_escape _ _).trans
            ((quotedBodyClosed_hex _ _).trans ((quotedBodyClosed_hex _ _).trans
              ((quotedBodyClosed_hex _ _).trans ((quotedBodyClosed_hex _ _).trans
                ((quotedBodyClosed_hex _ _).trans ((quotedBodyClosed_hex _ _).trans
                  ((quotedBodyClosed_hex _ _).trans (quotedBodyClosed_hex _ _))))))))

theorem quotedBodyClosed_flatMap (env : Env) (m : List Char) :
    quotedBodyClosed (m.flatMap (appendEscapedRune env)) = true := by
  induction m with
  | nil => rfl
  | cons c m ih => rw [List.flatMap_cons, quotedBodyClosed_rune, ih]

/-- What `handleInformativeOutput` writes in sourced mode for a message `m`:
`echo `, then `m` with a backslash put right before every backtick, double
quote, single quote, `&`, `|`, `<`, `>`, `;`, `(`, `)` and `$` (taking these
backslashes out gives `m` back), then a newline; when `m` holds no backslash
the shell meets none of these characters unescaped. -/
theorem informative_line_escaped (tbl : Char → Bool) (path : Except String String)
    (m : String) (db : List Row) :
    (handleInformativeOutput ⟨true, tbl, path, none, none, none⟩ m (World.start db)).stdout =
      "echo " ++ escapeForShell m ++ "\n" ∧
    precededByBackslash ' ' (escapeForShell m).data = true ∧
    dropEscapes (escapeForShell m).data = m.data ∧
    (Char.ofNat 92 ∉ m.data → shellReadsLiteral (escapeForShell m).data = true) := by
  refine ⟨?_, escapeForShell_preceded m.data ' ', dropEscapes_escapeForShell m.data,
    shellReadsLiteral_escapeForShell m.data⟩
  simp [info_stdout]

/-- What `handleErrorOutput` writes in sourced mode for a message `m`: `echo `,
then the double-quoted literal of `m`, inside which no double quote ends the
literal early, then a newline. -/
theorem error_line_quoted (tbl : Char → Bool) (path : Except String String)
    (m : String) (db : List Row) :
    (handleErrorOutput ⟨true, tbl, path, none, none, none⟩ m (World.start db)).stdout =
      "echo " ++ Quote ⟨true, tbl, path, none, none, none⟩ m ++ "\n" ∧
    (Quote ⟨true, tbl, path, none, none, none⟩ m).data =
      '"' :: (m.data.flatMap (appendEscapedRune ⟨true, tbl, path, none, none, none⟩) ++ ['"']) ∧
    quotedBodyClosed
      (m.data.flatMap (appendEscapedRune ⟨true, tbl, path, none, none, none⟩)) = true := by
  refine ⟨?_, rfl, quotedBodyClosed_flatMap _ m.data⟩
  simp [error_stdout]

/-- C9 (code defect). In sourced mode the error line for the message `$` is
`echo "$"`: the dollar sign stands after a double quote, not after a
backslash, and inside double quotes the shell still expands it. So the recall
of a missing alias under the folder `f$(touch /tmp/x)` hands the parent shell
a command substitution. And the informational line for a backslash followed
by `$` is `echo \\$`, where the backslash before the dollar sign is itself
escaped, so the shell meets the dollar sign unescaped. -/
theorem C9_sourced_output_not_all_escaped :
    (handleErrorOutput ⟨true, fun _ => true, .ok "db", none, none, none⟩ "$"
        (World.start [])).stdout = "echo \"$\"\n" ∧
    precededByBackslash ' ' (echoPayload
      (handleErrorOutput ⟨true, fun _ => true, .ok "db", none, none, none⟩ "$"
        (World.start [])).stdout) = false ∧
    (main ⟨false, fun _ => true, .ok "db", none, none, none⟩ "t"
        ["tlp2", "--sourced", "f$(touch /tmp/x)", "x"] (World.start [])).stdout =
      "echo \"Error: Alias 'x' under folder 'f$(touch /tmp/x)' does not exist.\"\n" ∧
    (handleInformativeOutput ⟨true, fun _ => true, .ok "db", none, none, none⟩ "\\$"
        (World.start [])).stdout = "echo \\\\$\n" ∧
    shellReadsLiteral (echoPayload
      (handleInformativeOutput ⟨true, fun _ => true, .ok "db", none, none, none⟩ "\\$"
        (World.start [])).stdout) = false := by
  decide

/-! ## The dispatcher -/

theorem print_exited (s : String) (w : World) (h : w.exitCode ≠ none) : w.print s = w := by
  unfold World.print
  split
  · rfl
  · exact absurd (by assumption) h

theorem info_exited (env : Env) (m : String) (w : World) (h : w.exitCode ≠ none) :
    handleInformativeOutput env m w = w := by
  unfold handleInformativeOutput
  split <;> exact print_exited _ w h

theorem printUsage_exited (env : Env) (command : String) (w : World)
    (h : w.exitCode ≠ none) : printUsage env command w = w := by
  unfold printUsage
  simp only [info_exited env _ w h]

theorem fatal_exited (env : Env) (m : String) (w : World) :
    (handleFatalErrorOutput env m w).exitCode ≠ none := by
  cases hw : w.exitCode with
  | some c =>
    cases hs : env.sourced <;>
      simp [handleFatalErrorOutput, hs, World.logFatal, World.exit, World.print, hw]
  | none =>
    cases hs : env.sourced <;>
      simp [handleFatalErrorOutput, hs, World.logFatal, World.exit, World.print, hw]

theorem fatal_effect (env : Env) (m : String) (w : World) (hw : w.exitCode = none) :
    (handleFatalErrorOutput env m w).exitCode = some 1 ∧
    (handleFatalErrorOutput env m w).db = w.db ∧
    (handleFatalErrorOutput env m w).stdout =
      w.stdout ++ (if env.sourced then "echo " ++ Quote env m ++ "\n" else "") ∧
    (handleFatalErrorOutput env m w).logged =
      w.logged ++ (if env.sourced then [] else [m]) := by
  cases hs : env.sourced
  · simp [handleFatalErrorOutput, hs, World.logFatal, hw]
  · simp [handleFatalErrorOutput, hs, World.exit, World.print, hw]

theorem flagLoop_update (fl : Flags) (a0 : String) (rest : List String) :
    flagLoop fl (a0 :: "--update" :: rest) =
      flagLoop { fl with update := true } ("--update" :: rest) := by
  rw [flagLoop]
  have h1 : HasPrefix "--update" "--" = true := by decide
  simp only [h1, if_true]

theorem flagLoop_sourced (fl : Flags) (a0 : String) (rest : List String) :
    flagLoop fl (a0 :: "--sourced" :: rest) =
      flagLoop { fl with sourced := true } ("--sourced" :: rest) := by
  rw [flagLoop]
  have h1 : HasPrefix "--sourced" "--" = true := by decide
  have h2 : ("--sourced" : String) ≠ "--update" := by decide
  have h3 : ("--sourced" : String) ≠ "--list" := by decide
  have h4 : ("--sourced" : String) ≠ "--delete" := by decide
  have h5 : ("--sourced" : String) ≠ "--rename" := by decide
  have h6 : ("--sourced" : String) ≠ "--rename-folder" := by decide
  have h7 : ("--sourced" : String) ≠ "--sqlite" := by decide
  simp only [h1, h2, h3, h4, h5, h6, h7, if_true, if_false]

theorem flagLoop_leading (fl : Flags) (a0 : String) (flags pos : List String)
    (hflags : ∀ f ∈ flags, f = "--update" ∨ f = "--sourced")
    (hpos : ∀ p, pos.head? = some p → HasPrefix p "--" = false) :
    flagLoop fl (a0 :: (flags ++ pos)) =
      .ok ({ fl with update := fl.update || decide ("--update" ∈ flags),
                     sourced := fl.sourced || decide ("--sourced" ∈ flags) },
           (flags.getLast?).getD a0 :: pos) := by
  induction flags generalizing fl a0 with
  | nil =>
    cases pos with
    | nil => simp [flagLoop]
    | cons p rest =>
      have hp : HasPrefix p "--" = false := hpos p rfl
      simp [flagLoop, hp]
  | cons f fs ih =>
    have hfs : ∀ g ∈ fs, g = "--update" ∨ g = "--sourced" :=
      fun g hg => hflags g (List.mem_cons_of_mem _ hg)
    rcases hflags f (List.mem_cons_self _ _) with hf | hf
    · subst hf
      rw [List.cons_append, flagLoop_update, ih _ _ hfs]
      simp [List.getLast?_cons]
    · subst hf
      have h8 : ("--update" : String) ≠ "--sourced" := by decide
      rw [List.cons_append, flagLoop_sourced, ih _ _ hfs]
      simp [List.getLast?_cons, h8]

/-- C10 (counterexample). With no argument after the program name `main`
does not print the usage: it reports `Invalid usage. Please check the
instructions.` as a fatal error and the process exits with status 1. -/
theorem C10_no_argument_is_fatal :
    (main ⟨false, fun _ => true, .ok "db", none, none, none⟩ "t" ["tlp2"] (World.start [])) =
      ⟨[], "", ["Invalid usage. Please check the instructions."], some 1⟩ ∧
    (main ⟨false, fun _ => true, .ok "db", none, none, none⟩ "t" ["tlp2"] (World.start [])) ≠
      printUsage ⟨false, fun _ => true, .ok "db", none, none, none⟩ "tlp2" (World.start []) := by
  decide

/-- C10 (amended). For an argument vector made of the program name, a leading
run of `--update` and `--sourced` switches (possibly empty) and the
positionals after it, `main` opens the database and runs the search for one
positional, the recall for two, the store-or-update for three, with `update`
true exactly when `--update` is in the run, and prints the usage for four or
more positionals and for no positional after a non-empty run. The usage
names `args[0]` as the loop left it: the last switch of the run, or the
program name. With nothing after the program name, `main` does exactly what
the fatal report of `Invalid usage. Please check the instructions.` does: the
store is kept, nothing of the usage is printed, and the process exits with
status 1. -/
theorem C10_dispatch (env : Env) (now prog : String) (flags pos : List String) (w : World)
    (hflags : ∀ f ∈ flags, f = "--update" ∨ f = "--sourced")
    (hpos : ∀ p, pos.head? = some p → HasPrefix p "--" = false) :
    (∀ p1, pos = [p1] →
      main env now (prog :: (flags ++ pos)) w =
        handleAliasSearch { env with sourced := env.sourced || decide ("--sourced" ∈ flags) } p1
          (initDatabase { env with sourced := env.sourced || decide ("--sourced" ∈ flags) } w)) ∧
    (∀ p1 p2, pos = [p1, p2] →
      main env now (prog :: (flags ++ pos)) w =
        handleRecall { env with sourced := env.sourced || decide ("--sourced" ∈ flags) } p1 p2
          (initDatabase { env with sourced := env.sourced || decide ("--sourced" ∈ flags) } w)) ∧
    (∀ p1 p2 p3, pos = [p1, p2, p3] →
      main env now (prog :: (flags ++ pos)) w =
        handleInsertOrUpdate { env with sourced := env.sourced || decide ("--sourced" ∈ flags) }
          now p1 p2 p3 (decide ("--update" ∈ flags))
          (initDatabase { env with sourced := env.sourced || decide ("--sourced" ∈ flags) } w)) ∧
    ((4 ≤ pos.length ∨ (pos = [] ∧ flags ≠ [])) →
      main env now (prog :: (flags ++ pos)) w =
        printUsage { env with sourced := env.sourced || decide ("--sourced" ∈ flags) }
          ((flags.getLast?).getD prog)
          (initDatabase { env with sourced := env.sourced || decide ("--sourced" ∈ flags) } w)) ∧
    (flags = [] → pos = [] →
      main env now (prog :: (flags ++ pos)) w =
        handleFatalErrorOutput env "Invalid usage. Please check the instructions." w ∧
      (w.exitCode = none →
        (main env now (prog :: (flags ++ pos)) w).exitCode = some 1 ∧
        (main env now (prog :: (flags ++ pos)) w).db = w.db ∧
        (main env now (prog :: (flags ++ pos)) w).stdout =
          w.stdout ++ (if env.sourced then
            "echo " ++ Quote env "Invalid usage. Please check the instructions." ++ "\n"
          else "") ∧
        (main env now (prog :: (flags ++ pos)) w).logged =
          w.logged ++ (if env.sourced then []
          else ["Invalid usage. Please check the instructions."]))) := by
  have hloop := flagLoop_leading ⟨false, false, false, false, false, false, env.sourced⟩ prog
    flags pos hflags hpos
  refine ⟨?_, ?_, ?_, ?_, ?_⟩
  · intro p1 h
    subst h
    have hlen : ¬ ((prog :: (flags ++ [p1])).length < 2) := by simp
    simp only [main, hlen, if_false, hloop]
    simp [argAt]
  · intro p1 p2 h
    subst h
    have hlen : ¬ ((prog :: (flags ++ [p1, p2])).length < 2) := by simp
    simp only [main, hlen, if_false, hloop]
    simp [argAt]
  · intro p1 p2 p3 h
    subst h
    have hlen : ¬ ((prog :: (flags ++ [p1, p2, p3])).length < 2) := by simp
    simp only [main, hlen, if_false, hloop]
    simp [argAt]
  · intro h
    have hlen : ¬ ((prog :: (flags ++ pos)).length < 2) := by
      rcases h with h | ⟨_, h⟩
      · simp; omega
      · cases flags with
        | nil => exact absurd rfl h
        | cons f fs => simp
    have h1 : pos.length ≠ 1 := by
      rcases h with h | ⟨h, _⟩
      · omega
      · simp [h]
    have h2 : pos.length ≠ 2 := by
      rcases h with h | ⟨h, _⟩
      · omega
      · simp [h]
    have h3 : pos.length ≠ 3 := by
      rcases h with h | ⟨h, _⟩
      · omega
      · simp [h]
    simp only [main, hlen, if_false, hloop]
    simp [argAt, h1, h2, h3]
  · intro hf hp
    subst hf
    subst hp
    have hmain : main env now (prog :: ([] ++ [])) w =
        handleFatalErrorOutput env "Invalid usage. Please check the instructions." w := by
      have hlen : (prog :: (([] : List String) ++ [])).length < 2 := by simp
      simp only [main, hlen, if_true]
      exact printUsage_exited env _ _ (fatal_exited env _ w)
    refine ⟨hmain, ?_⟩
    intro hw
    rw [hmain]
    exact fatal_effect env _ w hw

/-- Witness of C10 (amended): a store with `--sourced --update` in front, and
the bare program name. -/
theorem C10_dispatch_witness :
    main ⟨false, fun _ => true, .ok "db", none, none, none⟩ "t"
        ("tlp2" :: (["--sourced", "--update"] ++ ["code/projects", "myapp", "/tmp/myapp"]))
        (World.start []) =
      handleInsertOrUpdate ⟨false || decide ("--sourced" ∈ ["--sourced", "--update"]),
          fun _ => true, .ok "db", none, none, none⟩
        "t" "code/projects" "myapp" "/tmp/myapp"
        (decide ("--update" ∈ ["--sourced", "--update"]))
        (initDatabase ⟨false || decide ("--sourced" ∈ ["--sourced", "--update"]),
          fun _ => true, .ok "db", none, none, none⟩ (World.start [])) ∧
    (main ⟨false, fun _ => true, .ok "db", none, none, none⟩ "t" ("tlp2" :: ([] ++ []))
        (World.start [])).exitCode = some 1 :=
  ⟨(C10_dispatch ⟨false, fun _ => true, .ok "db", none, none, none⟩ "t" "tlp2"
      ["--sourced", "--update"] ["code/projects", "myapp", "/tmp/myapp"] (World.start [])
      (by decide) (by intro p hp; cases hp; decide)).2.2.1 _ _ _ rfl,
   ((C10_dispatch ⟨false, fun _ => true, .ok "db", none, none, none⟩ "t" "tlp2" [] []
      (World.start []) (by simp) (by simp)).2.2.2.2 rfl rfl).2 rfl |>.1⟩

/-! ## The uniqueness of `(folder_path, alias)` -/

theorem sameKey_iff (a b : Row) : sameKey a b = true ↔ keyOf a = keyOf b := by
  simp [sameKey, keyOf, Prod.ext_iff]

theorem uniqueKeys_middle (done rest : List Row) (x : Row) :
    UniqueKeys (done ++ x :: rest) ↔
      keyOf x ∉ (done ++ rest).map keyOf ∧ UniqueKeys (done ++ rest) := by
  unfold UniqueKeys
  rw [List.map_append, List.map_cons, List.nodup_middle, List.nodup_cons, List.map_append]

theorem uniqueKeys_map_same (db : List Row) (f : Row → Row) (hf : ∀ r, keyOf (f r) = keyOf r)
    (hu : UniqueKeys db) : UniqueKeys (db.map f) := by
  unfold UniqueKeys at *
  rw [List.map_map]
  have : keyOf ∘ f = keyOf := funext hf
  rw [this]
  exact hu

theorem uniqueKeys_filter (db : List Row) (p : Row → Bool) (hu : UniqueKeys db) :
    UniqueKeys (db.filter p) := by
  unfold UniqueKeys at *
  exact List.Nodup.sublist ((List.filter_sublist db).map keyOf) hu

theorem sqlUpdateKeyFrom_unique (hit : Row → Bool) (set : Row → Row) (done todo t : List Row)
    (n : Nat) (hu : UniqueKeys (done ++ todo))
    (hok : sqlUpdateKeyFrom hit set done todo = .ok (t, n)) : UniqueKeys t := by
  induction todo generalizing done n t with
  | nil =>
    simp only [sqlUpdateKeyFrom, Except.ok.injEq, Prod.mk.injEq] at hok
    rw [← hok.1]
    simpa using hu
  | cons r rest ih =>
    unfold sqlUpdateKeyFrom at hok
    have hrest : UniqueKeys (done ++ rest) := ((uniqueKeys_middle done rest r).mp hu).2
    by_cases hr : hit r = true
    · rw [if_pos hr] at hok
      by_cases hany : (done ++ rest).any (sameKey (set r)) = true
      · rw [if_pos hany] at hok
        cases hok
      · rw [if_neg hany] at hok
        have hfresh : keyOf (set r) ∉ (done ++ rest).map keyOf := by
          intro hmem
          obtain ⟨x, hx, hkx⟩ := List.mem_map.mp hmem
          apply hany
          rw [List.any_eq_true]
          exact ⟨x, hx, (sameKey_iff _ _).mpr hkx.symm⟩
        have hu2 : UniqueKeys ((done ++ [set r]) ++ rest) := by
          rw [List.append_assoc, List.singleton_append]
          exact (uniqueKeys_middle done rest (set r)).mpr ⟨hfresh, hrest⟩
        cases hrec : sqlUpdateKeyFrom hit set (done ++ [set r]) rest with
        | error e => rw [hrec] at hok; cases hok
        | ok res =>
          obtain ⟨t2, n2⟩ := res
          rw [hrec] at hok
          simp only [Except.ok.injEq, Prod.mk.injEq] at hok
          rw [← hok.1]
          exact ih (done ++ [set r]) t2 n2 hu2 hrec
    · rw [if_neg hr] at hok
      have hu2 : UniqueKeys ((done ++ [r]) ++ rest) := by
        rw [List.append_assoc, List.singleton_append]
        exact hu
      exact ih (done ++ [r]) t n hu2 hok

theorem sqlUpdateKey_unique (hit : Row → Bool) (set : Row → Row) (db t : List Row) (n : Nat)
    (hu : UniqueKeys db) (hok : sqlUpdateKey hit set db = .ok (t, n)) : UniqueKeys t :=
  sqlUpdateKeyFrom_unique hit set [] db t n (by simpa using hu) hok

theorem sqlInsert_unique (folderPath alias_ absolutePath createdAt updatedAt : String)
    (db t : List Row) (n : Nat) (hu : UniqueKeys db)
    (hok : sqlInsert folderPath alias_ absolutePath createdAt updatedAt db = .ok (t, n)) :
    UniqueKeys t := by
  unfold sqlInsert at hok
  by_cases hany : db.any (whereKey folderPath alias_) = true
  · rw [if_pos hany] at hok
    cases hok
  · rw [if_neg hany] at hok
    simp only [Except.ok.injEq, Prod.mk.injEq] at hok
    rw [← hok.1]
    have hmid := (uniqueKeys_middle db []
      ⟨folderPath, alias_, absolutePath, createdAt, updatedAt, 0⟩).mpr
    rw [List.append_nil] at hmid
    apply hmid
    refine ⟨?_, hu⟩
    intro hmem
    obtain ⟨x, hx, hkx⟩ := List.mem_map.mp hmem
    apply hany
    rw [List.any_eq_true]
    refine ⟨x, hx, (whereKey_iff _ _ _).mpr ?_⟩
    simp only [keyOf, Prod.mk.injEq] at hkx
    exact hkx

theorem setDb_db_cases (db : List Row) (w : World) :
    (w.setDb db).db = db ∨ (w.setDb db).db = w.db := by
  unfold World.setDb
  split
  · exact Or.inr rfl
  · exact Or.inl rfl

@[simp] theorem fatal_db (env : Env) (m : String) (w : World) :
    (handleFatalErrorOutput env m w).db = w.db := by
  unfold handleFatalErrorOutput World.exit World.logFatal
  split
  · split <;> simp
  · split <;> rfl

theorem uniqueKeys_setDb (db : List Row) (w : World) (hw : UniqueKeys w.db)
    (hdb : UniqueKeys db) : UniqueKeys (w.setDb db).db := by
  rcases setDb_db_cases db w with h | h <;> rw [h] <;> assumption

theorem handleInsertOrUpdate_unique (env : Env) (now folderPath alias_ absolutePath : String)
    (update : Bool) (w : World) (hu : UniqueKeys w.db) :
    UniqueKeys (handleInsertOrUpdate env now folderPath alias_ absolutePath update w).db := by
  unfold handleInsertOrUpdate
  split
  · split
    · simpa using hu
    · simp only [sqlUpdate, info_db]
      exact uniqueKeys_setDb _ w hu (uniqueKeys_map_same w.db _ (by intro r; split <;> rfl) hu)
  · cases hins : sqlInsert folderPath alias_ absolutePath now now w.db with
    | error e => simpa using hu
    | ok res =>
      obtain ⟨t, n⟩ := res
      simp only [info_db]
      exact uniqueKeys_setDb _ w hu (sqlInsert_unique _ _ _ _ _ w.db t n hu hins)
  · simpa using hu

theorem handleRecall_unique (env : Env) (folderPath alias_ : String) (w : World)
    (hu : UniqueKeys w.db) : UniqueKeys (handleRecall env folderPath alias_ w).db := by
  unfold handleRecall
  split
  · simpa using hu
  · simpa using hu
  · simp only [sqlUpdate, print_db]
    exact uniqueKeys_setDb _ w hu (uniqueKeys_map_same w.db _ (by intro r; split <;> rfl) hu)

theorem handleDelete_unique (env : Env) (folderPath alias_ : String) (w : World)
    (hu : UniqueKeys w.db) : UniqueKeys (handleDelete env folderPath alias_ w).db := by
  unfold handleDelete
  simp only [sqlDelete]
  split
  · simp only [error_db]
    exact uniqueKeys_setDb _ w hu (uniqueKeys_filter w.db _ hu)
  · simp only [info_db]
    exact uniqueKeys_setDb _ w hu (uniqueKeys_filter w.db _ hu)

theorem handleRename_unique (env : Env) (now folderPath oldAlias newAliasName : String)
    (w : World) (hu : UniqueKeys w.db) :
    UniqueKeys (handleRename env now folderPath oldAlias newAliasName w).db := by
  unfold handleRename
  cases hupd : sqlUpdateKey (whereKey folderPath oldAlias)
      (fun r => { r with alias_ := newAliasName, updated_at := now }) w.db with
  | error e => simpa using hu
  | ok res =>
    obtain ⟨t, n⟩ := res
    have ht := sqlUpdateKey_unique _ _ w.db t n hu hupd
    simp only
    split
    · simp only [error_db]
      exact uniqueKeys_setDb _ w hu ht
    · simp only [info_db]
      exact uniqueKeys_setDb _ w hu ht

theorem handleRenameFolder_unique (env : Env) (now oldFolderPath newFolderPath : String)
    (w : World) (hu : UniqueKeys w.db) :
    UniqueKeys (handleRenameFolder env now oldFolderPath newFolderPath w).db := by
  unfold handleRenameFolder
  cases hupd : sqlUpdateKey (fun r => r.folder_path == oldFolderPath)
      (fun r => { r with folder_path := newFolderPath, updated_at := now }) w.db with
  | error e => simpa using hu
  | ok res =>
    obtain ⟨t, n⟩ := res
    have ht := sqlUpdateKey_unique _ _ w.db t n hu hupd
    simp only
    split
    · simp only [error_db]
      exact uniqueKeys_setDb _ w hu ht
    · simp only [info_db]
      exact uniqueKeys_setDb _ w hu ht

/-- C11. Uniqueness invariant: when no two records of the store share the
same `(folder_path, alias)` pair, the store left by `handleInsertOrUpdate`, by
`handleRecall`, by `handleDelete`, by `handleRename` and by
`handleRenameFolder`, with any arguments, again has no two records sharing a
pair; hence every store reachable from the empty store has none. -/
theorem C11_unique_keys_invariant :
    (∀ (env : Env) (now folderPath alias_ absolutePath : String) (update : Bool)
        (db : List Row), UniqueKeys db →
      UniqueKeys (handleInsertOrUpdate env now folderPath alias_ absolutePath update
        (World.start db)).db) ∧
    (∀ (env : Env) (folderPath alias_ : String) (db : List Row), UniqueKeys db →
      UniqueKeys (handleRecall env folderPath alias_ (World.start db)).db) ∧
    (∀ (env : Env) (folderPath alias_ : String) (db : List Row), UniqueKeys db →
      UniqueKeys (handleDelete env folderPath alias_ (World.start db)).db) ∧
    (∀ (env : Env) (now folderPath oldAlias newAliasName : String) (db : List Row),
      UniqueKeys db →
      UniqueKeys (handleRename env now folderPath oldAlias newAliasName (World.start db)).db) ∧
    (∀ (env : Env) (now oldFolderPath newFolderPath : String) (db : List Row),
      UniqueKeys db →
      UniqueKeys (handleRenameFolder env now oldFolderPath newFolderPath
        (World.start db)).db) ∧
    (∀ db : List Row, Reachable db → UniqueKeys db) := by
  refine ⟨?_, ?_, ?_, ?_, ?_, ?_⟩
  · intro env now folderPath alias_ absolutePath update db hu
    exact handleInsertOrUpdate_unique env now folderPath alias_ absolutePath update _ hu
  · intro env folderPath alias_ db hu
    exact handleRecall_unique env folderPath alias_ _ hu
  · intro env folderPath alias_ db hu
    exact handleDelete_unique env folderPath alias_ _ hu
  · intro env now folderPath oldAlias newAliasName db hu
    exact handleRename_unique env now folderPath oldAlias newAliasName _ hu
  · intro env now oldFolderPath newFolderPath db hu
    exact handleRenameFolder_unique env now oldFolderPath newFolderPath _ hu
  · intro db hr
    induction hr with
    | empty => exact List.nodup_nil
    | stepInsertOrUpdate env now folderPath alias_ absolutePath update db _ ih =>
      exact handleInsertOrUpdate_unique env now folderPath alias_ absolutePath update _ ih
    | stepRecall env folderPath alias_ db _ ih =>
      exact handleRecall_unique env folderPath alias_ _ ih
    | stepDelete env folderPath alias_ db _ ih =>
      exact handleDelete_unique env folderPath alias_ _ ih
    | stepRename env now folderPath oldAlias newAliasName db _ ih =>
      exact handleRename_unique env now folderPath oldAlias newAliasName _ ih
    | stepRenameFolder env now oldFolderPath newFolderPath db _ ih =>
      exact handleRenameFolder_unique env now oldFolderPath newFolderPath _ ih

/-- Witness of C11: the folder `code/projects`, holding `myapp` and `notes`,
is renamed to `other/projects`, where `myapp` is not stored; and the store
reached from the empty one by storing `myapp` and renaming it to `app`. -/
theorem C11_unique_keys_invariant_witness :
    UniqueKeys [⟨"code/projects", "myapp", "/home/user/code/myapp", "s", "s", 0⟩,
      ⟨"code/projects", "notes", "/home/user/notes", "s", "s", 2⟩,
      ⟨"other/projects", "tool", "/tmp/tool", "s", "s", 0⟩] ∧
    UniqueKeys (handleRenameFolder ⟨false, fun _ => true, .ok "db", none, none, none⟩ "t" "code/projects"
      "other/projects"
      (World.start [⟨"code/projects", "myapp", "/home/user/code/myapp", "s", "s", 0⟩,
        ⟨"code/projects", "notes", "/home/user/notes", "s", "s", 2⟩,
        ⟨"other/projects", "tool", "/tmp/tool", "s", "s", 0⟩])).db ∧
    UniqueKeys (handleRename ⟨false, fun _ => true, .ok "db", none, none, none⟩ "t2" "code/projects" "myapp" "app"
      (World.start (handleInsertOrUpdate ⟨false, fun _ => true, .ok "db", none, none, none⟩ "t1" "code/projects"
        "myapp" "/home/user/code/myapp" false (World.start [])).db)).db :=
  ⟨by decide,
   C11_unique_keys_invariant.2.2.2.2.1 ⟨false, fun _ => true, .ok "db", none, none, none⟩ "t" "code/projects"
     "other/projects" _ (by decide),
   C11_unique_keys_invariant.2.2.2.2.2 _
     (Reachable.stepRename _ "t2" "code/projects" "myapp" "app" _
       (Reachable.stepInsertOrUpdate _ "t1" "code/projects" "myapp" "/home/user/code/myapp" false _
         Reachable.empty))⟩

end Tlp2
